import Mathlib

/-!
Verification development for the PureSpice SPICE client
(`src/spice.c`, `src/channel_inputs.c`).

The definitions below are a shallow embedding of the C code: machine
integers become `Nat`/`Int` (with explicit `% 2^32` where `uint32_t`
wrap-around is reachable), socket reads become consumption of a
`List Nat` byte stream, and the callback invocations and outgoing
packets become explicit event lists.  Definitions keep the C function
names where Lean allows it.
-/

/-- Status codes of the client (`PS_STATUS` in `spice.c`). -/
inductive PSStatus where
  | ok
  | handled
  | nodata
  | error
deriving DecidableEq, Repr

/-- Clipboard data types exposed by the API (`PSDataType`). -/
inductive PSDataType where
  | text
  | png
  | bmp
  | tiff
  | jpeg
  | none
deriving DecidableEq, Repr

/-- Two to the thirty-second power, the modulus of `uint32_t` arithmetic. -/
def U32MOD : Nat := 4294967296

/-- Subtraction with `uint32_t` wrap-around semantics (`a - b` in C on
`uint32_t` operands reduced mod `2^32`). -/
def u32sub (a b : Nat) : Nat := (a % U32MOD + (U32MOD - b % U32MOD)) % U32MOD

theorem u32sub_of_le {a b : Nat} (hba : b ≤ a) (ha : a < U32MOD) :
    u32sub a b = a - b := by
  unfold u32sub U32MOD at *
  omega

/-! ## Mouse motion splitting (`purespice_mouseMotion`, `spice.c:1528-1599`)

`purespice_mouseMotion(x, y)` splits a relative motion into sub-motions of
at most ±127 per component.  The C loop
`while (x != 0 || y != 0) { m->x = clamp(x); m->y = clamp(y); x -= m->x; y -= m->y; }`
is `motionSplit`; `msgs = (delta + 126) / 127` with
`delta = max(abs(x), abs(y))` is `motionMsgs`. -/

/-- Saturation of one motion component to `[-127, 127]`
(`x > 127 ? 127 : (x < -127 ? -127 : x)` in `purespice_mouseMotion`). -/
def clampMotion (v : Int) : Int :=
  if 127 < v then 127 else if v < -127 then -127 else v

theorem clampMotion_bounds (v : Int) :
    -127 ≤ clampMotion v ∧ clampMotion v ≤ 127 := by
  unfold clampMotion
  split <;> [skip; split] <;> omega

theorem natAbs_sub_clampMotion (v : Int) :
    (v - clampMotion v).natAbs = v.natAbs - 127 := by
  unfold clampMotion
  split <;> [skip; split] <;> omega

/-- The sub-motion list built by the `while (x != 0 || y != 0)` loop of
`purespice_mouseMotion`: each entry is one `SpiceMsgcMouseMotion` with
saturated components, and the residual motion is carried to the next
iteration. -/
def motionSplit (x y : Int) : List (Int × Int) :=
  if x = 0 ∧ y = 0 then []
  else
    (clampMotion x, clampMotion y) ::
      motionSplit (x - clampMotion x) (y - clampMotion y)
termination_by x.natAbs + y.natAbs
decreasing_by
  have hx := natAbs_sub_clampMotion x
  have hy := natAbs_sub_clampMotion y
  unfold clampMotion at *
  rename_i h
  omega

/-- Value of `const unsigned delta = abs(x) > abs(y) ? abs(x) : abs(y)`. -/
def motionDelta (x y : Int) : Nat := max x.natAbs y.natAbs

/-- Value of `const unsigned msgs = (delta + 126) / 127`. -/
def motionMsgs (x y : Int) : Nat := (motionDelta x y + 126) / 127

/-- The part of the client state `purespice_mouseMotion` touches. -/
structure MouseState where
  connected : Bool
  sentCount : Int
deriving DecidableEq, Repr

/-- Shallow embedding of `purespice_mouseMotion` (`spice.c:1528-1599`).
Returns the C function's boolean result, the updated state, and the list
of `SpiceMsgcMouseMotion` sub-motions written to the socket (the
`msgs == 1` fast path sends `(x, y)` directly; the general path packs
`motionSplit x y` into one buffer and writes it with a single `send`).
The write itself is assumed to succeed. -/
def purespice_mouseMotion (st : MouseState) (x y : Int) :
    Bool × MouseState × List (Int × Int) :=
  if st.connected = false then (false, st, [])
  else if motionMsgs x y = 1 then
    (true, { st with sentCount := st.sentCount + 1 }, [(x, y)])
  else
    (true, { st with sentCount := st.sentCount + (motionMsgs x y : Int) },
     motionSplit x y)

theorem motionSplit_length (x y : Int) :
    (motionSplit x y).length = (max x.natAbs y.natAbs + 126) / 127 := by
  induction x, y using motionSplit.induct with
  | case1 x y h =>
    rw [motionSplit]
    simp only [if_pos h]
    obtain ⟨hx, hy⟩ := h
    subst hx; subst hy
    decide
  | case2 x y h ih =>
    rw [motionSplit]
    simp only [if_neg h, List.length_cons]
    rw [ih]
    have hx := natAbs_sub_clampMotion x
    have hy := natAbs_sub_clampMotion y
    have hnz : x.natAbs ≠ 0 ∨ y.natAbs ≠ 0 := by
      rcases Decidable.em (x = 0) with hx0 | hx0
      · right
        intro hy0
        exact h ⟨hx0, by omega⟩
      · left
        omega
    omega

theorem motionSplit_bounds (x y : Int) :
    ∀ m ∈ motionSplit x y, -127 ≤ m.1 ∧ m.1 ≤ 127 ∧ -127 ≤ m.2 ∧ m.2 ≤ 127 := by
  induction x, y using motionSplit.induct with
  | case1 x y h =>
    rw [motionSplit]
    simp [h]
  | case2 x y h ih =>
    rw [motionSplit]
    simp only [if_neg h, List.mem_cons]
    rintro m (rfl | hm)
    · have h1 := clampMotion_bounds x
      have h2 := clampMotion_bounds y
      exact ⟨h1.1, h1.2, h2.1, h2.2⟩
    · exact ih m hm

theorem motionSplit_sum (x y : Int) :
    ((motionSplit x y).map Prod.fst).sum = x ∧
    ((motionSplit x y).map Prod.snd).sum = y := by
  induction x, y using motionSplit.induct with
  | case1 x y h =>
    rw [motionSplit]
    obtain ⟨hx, hy⟩ := h
    simp [hx, hy]
  | case2 x y h ih =>
    rw [motionSplit]
    simp only [if_neg h, List.map_cons, List.sum_cons]
    exact ⟨by rw [ih.1]; ring, by rw [ih.2]; ring⟩

/-- C1: on a connected Inputs channel, `purespice_mouseMotion (dx, dy)`
transmits exactly `ceil(max(|dx|, |dy|) / 127)` sub-motions, every
sub-motion component lies in `[-127, 127]`, the componentwise sums of the
sub-motions equal `(dx, dy)` exactly, and `mouse.sentCount` increases by
the number of sub-motions. -/
theorem mouseMotion_subMotions (st : MouseState) (x y : Int)
    (hconn : st.connected = true) :
    (purespice_mouseMotion st x y).1 = true ∧
    (purespice_mouseMotion st x y).2.2.length =
      (max x.natAbs y.natAbs + 126) / 127 ∧
    (∀ m ∈ (purespice_mouseMotion st x y).2.2,
      -127 ≤ m.1 ∧ m.1 ≤ 127 ∧ -127 ≤ m.2 ∧ m.2 ≤ 127) ∧
    ((purespice_mouseMotion st x y).2.2.map Prod.fst).sum = x ∧
    ((purespice_mouseMotion st x y).2.2.map Prod.snd).sum = y ∧
    (purespice_mouseMotion st x y).2.1.sentCount =
      st.sentCount + (((max x.natAbs y.natAbs + 126) / 127 : Nat) : Int) := by
  unfold purespice_mouseMotion
  rw [hconn]
  simp only [Bool.true_eq_false, if_false]
  by_cases h1 : motionMsgs x y = 1
  · have hd : (max x.natAbs y.natAbs + 126) / 127 = 1 := h1
    have hxm : x.natAbs ≤ max x.natAbs y.natAbs := Nat.le_max_left _ _
    have hym : y.natAbs ≤ max x.natAbs y.natAbs := Nat.le_max_right _ _
    have hle : max x.natAbs y.natAbs ≤ 127 := by omega
    rw [if_pos h1]
    refine ⟨rfl, by simpa using hd.symm, ?_, by simp, by simp, by rw [hd]; simp⟩
    intro m hm
    simp only [List.mem_singleton] at hm
    subst hm
    constructor
    · omega
    · refine ⟨by omega, by omega, by omega⟩
  · rw [if_neg h1]
    refine ⟨rfl, motionSplit_length x y, motionSplit_bounds x y,
      (motionSplit_sum x y).1, (motionSplit_sum x y).2, rfl⟩

/-- Witness for C1 at the spec's own example: `mouseMotion(200, -300)`
is split into three sub-motions summing to `(200, -300)`. -/
theorem mouseMotion_subMotions_witness :
    ({ connected := true, sentCount := 0 } : MouseState).connected = true ∧
    ((purespice_mouseMotion { connected := true, sentCount := 0 } 200 (-300)).1 = true ∧
     (purespice_mouseMotion { connected := true, sentCount := 0 } 200 (-300)).2.2.length =
       (max (200 : Int).natAbs (-300 : Int).natAbs + 126) / 127 ∧
     (∀ m ∈ (purespice_mouseMotion { connected := true, sentCount := 0 } 200 (-300)).2.2,
       -127 ≤ m.1 ∧ m.1 ≤ 127 ∧ -127 ≤ m.2 ∧ m.2 ≤ 127) ∧
     ((purespice_mouseMotion { connected := true, sentCount := 0 } 200 (-300)).2.2.map Prod.fst).sum = 200 ∧
     ((purespice_mouseMotion { connected := true, sentCount := 0 } 200 (-300)).2.2.map Prod.snd).sum = -300 ∧
     (purespice_mouseMotion { connected := true, sentCount := 0 } 200 (-300)).2.1.sentCount =
       0 + (((max (200 : Int).natAbs (-300 : Int).natAbs + 126) / 127 : Nat) : Int)) :=
  ⟨rfl, mouseMotion_subMotions { connected := true, sentCount := 0 } 200 (-300) rfl⟩

/-! ## Common channel messages and ack accounting
(`purespice_onCommonRead`, `spice.c:426-507`; `purespice_processAck`,
`spice.c:411-424`; the dispatch loop of `purespice_process`,
`spice.c:337-409`). -/

/-- The per-channel fields involved in common message handling
(`struct PSChannel`). -/
structure ChannelState where
  connected : Bool
  initDone : Bool
  ackFrequency : Nat
  ackCount : Nat
deriving DecidableEq, Repr

/-- Client-to-server packets emitted by the common handlers. -/
inductive ChannelOut where
  | ack
  | ackSync (generation : Nat)
  | pong (id timestamp : Nat)
deriving DecidableEq, Repr

/-- Inbound messages dispatched by `purespice_onCommonRead`, after the
mini header has been parsed.  `extra` of `ping` is `header.size -
sizeof(SpiceMsgPing)`, the byte count discarded by the handler;
`notify` carries `header.size`; `other` stands for any type the common
path leaves to the channel-specific handler. -/
inductive CommonMsg where
  | migrate
  | migrateData
  | waitForChannels
  | disconnecting
  | setAck (generation window : Nat)
  | ping (id timestamp : Nat) (extra : Nat)
  | notify (size : Nat)
  | other (ty size : Nat)
deriving DecidableEq, Repr

/-- Result of one `purespice_onCommonRead` call: the updated channel,
the packets sent, the number of payload bytes read-and-dropped, and the
returned `PS_STATUS`. -/
structure CommonResult where
  channel : ChannelState
  outs : List ChannelOut
  discarded : Nat
  status : PSStatus
deriving DecidableEq, Repr

/-- Shallow embedding of `purespice_onCommonRead` (`spice.c:426-507`).
Before `initDone` the common path returns `PS_STATUS_OK` untouched; the
`SET_ACK` case stores `ackFrequency = in.window` and replies
`MSGC_ACK_SYNC{in.generation}`; the `PING` case discards the extra bytes
and replies `MSGC_PONG{in.id, in.timestamp}`.  Packet sends are assumed
to succeed. -/
def purespice_onCommonRead (ch : ChannelState) (msg : CommonMsg) : CommonResult :=
  if ch.connected = false then ⟨ch, [], 0, .handled⟩
  else if ch.initDone = false then ⟨ch, [], 0, .ok⟩
  else
    match msg with
    | .migrate => ⟨ch, [], 0, .handled⟩
    | .migrateData => ⟨ch, [], 0, .handled⟩
    | .waitForChannels => ⟨ch, [], 0, .handled⟩
    | .disconnecting => ⟨ch, [], 0, .handled⟩
    | .setAck g w => ⟨{ ch with ackFrequency := w }, [.ackSync g], 0, .handled⟩
    | .ping id ts extra => ⟨ch, [.pong id ts], extra, .handled⟩
    | .notify sz => ⟨ch, [], sz, .handled⟩
    | .other _ _ => ⟨ch, [], 0, .ok⟩

/-- Shallow embedding of `purespice_processAck` (`spice.c:411-424`).
The C code is `if (channel->ackCount++ != channel->ackFrequency) return
true; channel->ackCount = 0; ... send(MSGC_ACK)`: the pre-increment value
of `ackCount` is compared against `ackFrequency`, the counter is
post-incremented (with `uint32_t` wrap) and overwritten with `0` when an
ack is emitted. -/
def purespice_processAck (ch : ChannelState) : ChannelState × List ChannelOut :=
  if ch.ackFrequency = 0 then (ch, [])
  else if ch.ackCount = ch.ackFrequency then ({ ch with ackCount := 0 }, [.ack])
  else ({ ch with ackCount := (ch.ackCount + 1) % U32MOD }, [])

/-- The steady-state dispatch loop of `purespice_process`
(`spice.c:359-382`) restricted to common messages: each message is
handled by `purespice_onCommonRead`, then, while the channel stays
connected, `purespice_processAck` runs; an `Error` or `NoData` status
stops the loop. -/
def runCommon (ch : ChannelState) : List CommonMsg → ChannelState × List ChannelOut
  | [] => (ch, [])
  | m :: ms =>
    let r := purespice_onCommonRead ch m
    match r.status with
    | .error => (r.channel, r.outs)
    | .nodata => (r.channel, r.outs)
    | _ =>
      if r.channel.connected then
        let a := purespice_processAck r.channel
        let rest := runCommon a.1 ms
        (rest.1, r.outs ++ a.2 ++ rest.2)
      else (r.channel, r.outs)

/-- Recognizer for `MSGC_ACK` among emitted packets. -/
def isAck : ChannelOut → Bool
  | .ack => true
  | _ => false

/-- Number of `MSGC_ACK` packets in an output trace. -/
def countAcks (outs : List ChannelOut) : Nat := (outs.filter isAck).length

theorem countAcks_append (a b : List ChannelOut) :
    countAcks (a ++ b) = countAcks a + countAcks b := by
  unfold countAcks
  rw [List.filter_append, List.length_append]

theorem runCommon_cons_notify (ch : ChannelState) (sz : Nat) (ms : List CommonMsg)
    (hc : ch.connected = true) (hi : ch.initDone = true) :
    runCommon ch (.notify sz :: ms) =
      ((runCommon (purespice_processAck ch).1 ms).1,
       (purespice_processAck ch).2 ++ (runCommon (purespice_processAck ch).1 ms).2) := by
  conv_lhs => rw [runCommon]
  simp [purespice_onCommonRead, hc, hi]

theorem processAck_connected (ch : ChannelState) :
    (purespice_processAck ch).1.connected = ch.connected := by
  unfold purespice_processAck
  split <;> [rfl; split <;> rfl]

/-- Ack counting over a run of `n` steady-state messages: starting from
counter `c ≤ w` with window `w > 0`, exactly `(n + c) / (w + 1)` acks are
emitted.  In particular the period between acks is `w + 1` messages, not
`w`. -/
theorem runCommon_notify_ackCount (w : Nat) (hw : 0 < w) (hw2 : w < U32MOD) :
    ∀ (n c : Nat), c ≤ w →
      countAcks (runCommon
        { connected := true, initDone := true, ackFrequency := w, ackCount := c }
        (List.replicate n (.notify 0))).2 = (n + c) / (w + 1) := by
  intro n
  induction n with
  | zero =>
    intro c hc
    simp only [List.replicate_zero]
    unfold runCommon
    have hz : (0 + c) / (w + 1) = 0 := Nat.div_eq_of_lt (by omega)
    rw [hz]
    rfl
  | succ n ih =>
    intro c hc
    rw [List.replicate_succ]
    rw [runCommon_cons_notify _ _ _ rfl rfl]
    rw [countAcks_append]
    by_cases hcw : c = w
    · have hstep : purespice_processAck
          { connected := true, initDone := true, ackFrequency := w, ackCount := c } =
          ({ connected := true, initDone := true, ackFrequency := w, ackCount := 0 },
           [.ack]) := by
        unfold purespice_processAck
        rw [if_neg (by simp; omega), if_pos (by simpa using hcw)]
      rw [hstep]
      simp only []
      rw [ih 0 (by omega)]
      have hca : countAcks [ChannelOut.ack] = 1 := by rfl
      rw [hca]
      rw [show n + 1 + c = n + 0 + (w + 1) by omega]
      rw [Nat.add_div_right _ (by omega)]
      omega
    · have hmod : (c + 1) % U32MOD = c + 1 := Nat.mod_eq_of_lt (by unfold U32MOD at *; omega)
      have hstep : purespice_processAck
          { connected := true, initDone := true, ackFrequency := w, ackCount := c } =
          ({ connected := true, initDone := true, ackFrequency := w, ackCount := c + 1 },
           []) := by
        unfold purespice_processAck
        rw [if_neg (by simp; omega), if_neg (by simpa using hcw)]
        simp only []
        rw [hmod]
      rw [hstep]
      simp only []
      rw [ih (c + 1) (by omega)]
      have hce : countAcks ([] : List ChannelOut) = 0 := by rfl
      rw [hce]
      rw [show n + 1 + c = n + (c + 1) by omega]
      omega

theorem processAck_initDone (ch : ChannelState) :
    (purespice_processAck ch).1.initDone = ch.initDone := by
  unfold purespice_processAck
  split <;> [rfl; split <;> rfl]

/-- Recognizer for `MSGC_ACK_SYNC` among emitted packets. -/
def isAckSync : ChannelOut → Bool
  | .ackSync _ => true
  | _ => false

theorem processAck_outs (ch : ChannelState) :
    (purespice_processAck ch).2 = [] ∨ (purespice_processAck ch).2 = [.ack] := by
  unfold purespice_processAck
  split
  · exact Or.inl rfl
  · split
    · exact Or.inr rfl
    · exact Or.inl rfl

theorem runCommon_notify_no_ackSync :
    ∀ (n : Nat) (ch : ChannelState), ch.connected = true → ch.initDone = true →
      List.filter isAckSync
        (runCommon ch (List.replicate n (.notify 0))).2 = [] := by
  intro n
  induction n with
  | zero =>
    intro ch hc hi
    simp [runCommon]
  | succ n ih =>
    intro ch hc hi
    rw [List.replicate_succ, runCommon_cons_notify _ _ _ hc hi]
    simp only [List.filter_append]
    rw [ih (purespice_processAck ch).1
        (by rw [processAck_connected]; exact hc)
        (by rw [processAck_initDone]; exact hi)]
    rcases processAck_outs ch with h | h <;> rw [h] <;> rfl

theorem runCommon_notify_disabled (c : Nat) :
    ∀ (n : Nat),
      countAcks (runCommon
        { connected := true, initDone := true, ackFrequency := 0, ackCount := c }
        (List.replicate n (.notify 0))).2 = 0 := by
  intro n
  induction n with
  | zero => rfl
  | succ n ih =>
    rw [List.replicate_succ, runCommon_cons_notify _ _ _ rfl rfl]
    have hstep : purespice_processAck
        { connected := true, initDone := true, ackFrequency := 0, ackCount := c } =
        ({ connected := true, initDone := true, ackFrequency := 0, ackCount := c }, []) := by
      unfold purespice_processAck
      rw [if_pos rfl]
    rw [hstep, countAcks_append, ih]
    rfl

theorem runCommon_cons_setAck (ch : ChannelState) (g w : Nat) (ms : List CommonMsg)
    (hc : ch.connected = true) (hi : ch.initDone = true) :
    runCommon ch (.setAck g w :: ms) =
      ((runCommon (purespice_processAck { ch with ackFrequency := w }).1 ms).1,
       .ackSync g ::
         ((purespice_processAck { ch with ackFrequency := w }).2 ++
          (runCommon (purespice_processAck { ch with ackFrequency := w }).1 ms).2)) := by
  conv_lhs => rw [runCommon]
  simp [purespice_onCommonRead, hc, hi]

theorem countAcks_cons_ackSync (g : Nat) (l : List ChannelOut) :
    countAcks (.ackSync g :: l) = countAcks l := rfl

theorem runCommon_setAck_start (g w n f : Nat) :
    runCommon { connected := true, initDone := true, ackFrequency := f, ackCount := 0 }
        (.setAck g w :: List.replicate n (.notify 0)) =
      ((runCommon (purespice_processAck
          { connected := true, initDone := true, ackFrequency := w, ackCount := 0 }).1
          (List.replicate n (.notify 0))).1,
       .ackSync g ::
         ((purespice_processAck
            { connected := true, initDone := true, ackFrequency := w, ackCount := 0 }).2 ++
          (runCommon (purespice_processAck
            { connected := true, initDone := true, ackFrequency := w, ackCount := 0 }).1
            (List.replicate n (.notify 0))).2)) := by
  conv_lhs => rw [runCommon]
  simp [purespice_onCommonRead]

/-- C2 (amended): for every `SET_ACK{generation, window}` received after
`initDone`, exactly one `MSGC_ACK_SYNC` carrying the same generation is
sent and the channel's `ackFrequency` is set to `window`; thereafter,
because `purespice_processAck` compares the pre-increment `ackCount`
against `ackFrequency` and resets the counter to `0` on emission, the
number of `MSGC_ACK`s emitted over the next `n` successfully parsed
messages is `(n + 1) / (window + 1)` (the `SET_ACK` message itself being
counted): one ack per `window + 1` messages in steady state, not one per
`window` as the claim states.  `ackFrequency = 0` disables ack emission
entirely. -/
theorem ack_window_schedule :
    (∀ (ch : ChannelState) (g w : Nat), ch.connected = true → ch.initDone = true →
      purespice_onCommonRead ch (.setAck g w) =
        ⟨{ ch with ackFrequency := w }, [.ackSync g], 0, .handled⟩) ∧
    (∀ (g w n f : Nat), 0 < w → w < U32MOD →
      countAcks (runCommon
          { connected := true, initDone := true, ackFrequency := f, ackCount := 0 }
          (.setAck g w :: List.replicate n (.notify 0))).2 = (n + 1) / (w + 1) ∧
      List.filter isAckSync (runCommon
          { connected := true, initDone := true, ackFrequency := f, ackCount := 0 }
          (.setAck g w :: List.replicate n (.notify 0))).2 = [.ackSync g]) ∧
    (∀ (n c : Nat),
      countAcks (runCommon
          { connected := true, initDone := true, ackFrequency := 0, ackCount := c }
          (List.replicate n (.notify 0))).2 = 0) := by
  refine ⟨?_, ?_, fun n c => runCommon_notify_disabled c n⟩
  · intro ch g w hc hi
    unfold purespice_onCommonRead
    rw [hc, hi]
    simp
  · intro g w n f hw hw2
    have hstep : purespice_processAck
        { connected := true, initDone := true, ackFrequency := w, ackCount := 0 } =
        ({ connected := true, initDone := true, ackFrequency := w, ackCount := 1 }, []) := by
      unfold purespice_processAck
      rw [if_neg (by simp; omega), if_neg (by simp; omega)]
      have h1 : (0 + 1) % U32MOD = 1 := Nat.mod_eq_of_lt (by unfold U32MOD; omega)
      simp only [h1]
    rw [runCommon_setAck_start, hstep]
    simp only [List.nil_append]
    constructor
    · rw [countAcks_cons_ackSync]
      exact runCommon_notify_ackCount w hw hw2 n 1 (by omega)
    · have hrest := runCommon_notify_no_ackSync n
        { connected := true, initDone := true, ackFrequency := w, ackCount := 1 } rfl rfl
      simp only [List.filter_cons]
      rw [hrest]
      rfl

/-- Witness for C2 (amended) at the spec's own scenario S3:
`SET_ACK{gen = 3, window = 2}` followed by five notify messages yields one
`ACK_SYNC{3}` and two `MSGC_ACK`s (after the 2nd and 5th notify). -/
theorem ack_window_schedule_witness :
    ({ connected := true, initDone := true, ackFrequency := 0, ackCount := 0 }
        : ChannelState).connected = true ∧
    countAcks (runCommon
        { connected := true, initDone := true, ackFrequency := 0, ackCount := 0 }
        (.setAck 3 2 :: List.replicate 5 (.notify 0))).2 = (5 + 1) / (2 + 1) ∧
    List.filter isAckSync (runCommon
        { connected := true, initDone := true, ackFrequency := 0, ackCount := 0 }
        (.setAck 3 2 :: List.replicate 5 (.notify 0))).2 = [.ackSync 3] :=
  ⟨rfl, (ack_window_schedule.2.1 3 2 5 0 (by decide) (by unfold U32MOD; omega)).1,
        (ack_window_schedule.2.1 3 2 5 0 (by decide) (by unfold U32MOD; omega)).2⟩

/-- Counterexample to C2 as stated: with `window = 1`, the claim demands
one `MSGC_ACK` per subsequent message, i.e. two acks over the two
messages following the `SET_ACK`; the code emits only one (the ack
counter is compared before the increment, so the steady-state period is
`window + 1`). -/
theorem ack_window_claim_counterexample :
    countAcks (runCommon
        { connected := true, initDone := true, ackFrequency := 0, ackCount := 0 }
        [.setAck 3 1, .notify 0, .notify 0]).2 = 1 ∧
    ¬ countAcks (runCommon
        { connected := true, initDone := true, ackFrequency := 0, ackCount := 0 }
        [.setAck 3 1, .notify 0, .notify 0]).2 = 2 := by
  constructor
  · rfl
  · intro h
    rw [show countAcks (runCommon
        { connected := true, initDone := true, ackFrequency := 0, ackCount := 0 }
        [.setAck 3 1, .notify 0, .notify 0]).2 = 1 from rfl] at h
    exact absurd h (by omega)

/-- C8: for every `PING{id, timestamp, extra}` received on a channel after
`initDone`, exactly one `MSGC_PONG` is sent whose `id` and `timestamp`
fields are bit-identical to those of the `PING`, the `extra` payload
bytes beyond the fixed part are read and discarded, and the channel state
is unchanged (`spice.c:463-482`). -/
theorem ping_pong_reply (ch : ChannelState) (id ts extra : Nat)
    (hc : ch.connected = true) (hi : ch.initDone = true) :
    purespice_onCommonRead ch (.ping id ts extra) =
      ⟨ch, [.pong id ts], extra, .handled⟩ := by
  unfold purespice_onCommonRead
  rw [hc, hi]
  simp

/-- Witness for C8: the spec's scenario S2, `PING{id = 7, timestamp =
0xCAFEBABE}` with 100 extra bytes, answered by exactly one matching
`MSGC_PONG`. -/
theorem ping_pong_reply_witness :
    ({ connected := true, initDone := true, ackFrequency := 0, ackCount := 0 }
        : ChannelState).connected = true ∧
    purespice_onCommonRead
        { connected := true, initDone := true, ackFrequency := 0, ackCount := 0 }
        (.ping 7 0xCAFEBABE 100) =
      ⟨{ connected := true, initDone := true, ackFrequency := 0, ackCount := 0 },
       [.pong 7 0xCAFEBABE], 100, .handled⟩ :=
  ⟨rfl, ping_pong_reply _ 7 0xCAFEBABE 100 rfl rfl⟩

/-! ## Keyboard scancode injection
(`purespice_keyDown` / `purespice_keyUp`, `spice.c:1449-1479`,
`channel_inputs.c:139-185`). -/

/-- The scancode transformation of `purespice_keyDown`: the C code is
`if (code > 0x100) code = 0xe0 | ((code - 0x100) << 8);` on a `uint32_t`,
so codes strictly greater than `0x100` are mapped and `0x100` itself is
sent unchanged. -/
def keyDownCode (code : Nat) : Nat :=
  if 0x100 < code then 0xe0 ||| (((code - 0x100) <<< 8) % U32MOD) else code

/-- The scancode transformation of `purespice_keyUp`: the C code is
`if (code < 0x100) code |= 0x80; else code = 0x80e0 | ((code - 0x100) << 8);`
on a `uint32_t`. -/
def keyUpCode (code : Nat) : Nat :=
  if code < 0x100 then code ||| 0x80
  else 0x80e0 ||| (((code - 0x100) <<< 8) % U32MOD)

/-- The connection state consulted by the key injectors. -/
structure KeyChannelState where
  connected : Bool
deriving DecidableEq, Repr

/-- Shallow embedding of `purespice_keyDown` (`spice.c:1449-1462`): on a
connected Inputs channel it sends one `SPICE_MSGC_INPUTS_KEY_DOWN` whose
`code` field is `keyDownCode code`; otherwise it sends nothing and
returns `false`. -/
def purespice_keyDown (st : KeyChannelState) (code : Nat) : Bool × Option Nat :=
  if st.connected = false then (false, Option.none)
  else (true, Option.some (keyDownCode code))

/-- Shallow embedding of `purespice_keyUp` (`spice.c:1464-1479`). -/
def purespice_keyUp (st : KeyChannelState) (code : Nat) : Bool × Option Nat :=
  if st.connected = false then (false, Option.none)
  else (true, Option.some (keyUpCode code))

/-- C5 (amended): on a connected Inputs channel, `keyDown(code)` sends
`code` unchanged when `code ≤ 0x100` and sends
`0xe0 | ((code - 0x100) << 8)` when `code > 0x100` (the boundary code
`0x100` is sent unchanged, unlike the claim's `code >= 0x100`);
`keyUp(code)` sends `code | 0x80` when `code < 0x100` and sends
`0x80e0 | ((code - 0x100) << 8)` when `code >= 0x100`, exactly as the
claim states. -/
theorem key_scancode_mapping (st : KeyChannelState) (code : Nat)
    (hc : st.connected = true) :
    (code ≤ 0x100 → purespice_keyDown st code = (true, Option.some code)) ∧
    (0x100 < code → purespice_keyDown st code =
      (true, Option.some (0xe0 ||| (((code - 0x100) <<< 8) % U32MOD)))) ∧
    (code < 0x100 → purespice_keyUp st code =
      (true, Option.some (code ||| 0x80))) ∧
    (0x100 ≤ code → purespice_keyUp st code =
      (true, Option.some (0x80e0 ||| (((code - 0x100) <<< 8) % U32MOD)))) := by
  unfold purespice_keyDown purespice_keyUp keyDownCode keyUpCode
  rw [hc]
  refine ⟨fun h => ?_, fun h => ?_, fun h => ?_, fun h => ?_⟩
  · simp only [Bool.true_eq_false, if_false]
    rw [if_neg (by omega)]
  · simp only [Bool.true_eq_false, if_false]
    rw [if_pos h]
  · simp only [Bool.true_eq_false, if_false]
    rw [if_pos h]
  · simp only [Bool.true_eq_false, if_false]
    rw [if_neg (by omega)]

/-- Witness for C5 (amended) at `code = 0x21` and, via the boundary
conjunct, at `code = 0x100`. -/
theorem key_scancode_mapping_witness :
    ({ connected := true } : KeyChannelState).connected = true ∧
    (0x21 ≤ 0x100 ∧
     purespice_keyDown { connected := true } 0x21 = (true, Option.some 0x21)) ∧
    (0x21 < 0x100 ∧
     purespice_keyUp { connected := true } 0x21 = (true, Option.some (0x21 ||| 0x80))) :=
  ⟨rfl,
   ⟨by decide, (key_scancode_mapping { connected := true } 0x21 rfl).1 (by decide)⟩,
   ⟨by decide, (key_scancode_mapping { connected := true } 0x21 rfl).2.2.1 (by decide)⟩⟩

/-- Counterexample to C5 as stated: at `code = 0x100` the claim demands
`keyDown` send the two-byte form `0xe0 | ((0x100 - 0x100) << 8) = 0xe0`,
but `purespice_keyDown` uses `code > 0x100` and sends `0x100` unchanged. -/
theorem key_scancode_claim_counterexample :
    purespice_keyDown { connected := true } 0x100 = (true, Option.some 0x100) ∧
    ¬ purespice_keyDown { connected := true } 0x100 =
        (true, Option.some (0xe0 ||| (((0x100 - 0x100) <<< 8) % U32MOD))) := by
  constructor
  · rfl
  · decide

/-! ## Inputs channel inbound handling
(`purespice_onInputsChannelRead`, `spice.c:705-754`;
`channelInputs_onRead`, `channel_inputs.c:69-137`). -/

/-- Value of `SPICE_INPUT_MOTION_ACK_BUNCH` from the SPICE protocol
headers. -/
def SPICE_INPUT_MOTION_ACK_BUNCH : Int := 4

/-- The state consulted by the Inputs channel-specific handler:
the channel's `initDone` flag, the keyboard modifier shadow and the
atomic `mouse.sentCount`. -/
structure InputsState where
  initDone : Bool
  kbModifiers : Nat
  sentCount : Int
deriving DecidableEq, Repr

/-- Inputs channel messages after the common path has declined them. -/
inductive InputsMsg where
  | inputsInit (modifiers : Nat)
  | keyModifiers (modifiers : Nat)
  | mouseMotionAck
  | other (ty size : Nat)
deriving DecidableEq, Repr

/-- Shallow embedding of the channel-specific part of
`purespice_onInputsChannelRead` (`spice.c:716-753`).  For
`INPUTS_MOUSE_MOTION_ACK` the C code is
`const int count = atomic_fetch_sub(&spice.mouse.sentCount,
SPICE_INPUT_MOTION_ACK_BUNCH); return (count >=
SPICE_INPUT_MOTION_ACK_BUNCH) ? PS_STATUS_OK : PS_STATUS_ERROR;`, i.e.
the bunch is subtracted unconditionally and the prior value decides the
status. -/
def channelInputs_onRead (st : InputsState) (msg : InputsMsg) :
    InputsState × PSStatus :=
  match msg with
  | .inputsInit _ =>
    if st.initDone then (st, .error)
    else ({ st with initDone := true }, .ok)
  | .keyModifiers m => ({ st with kbModifiers := m }, .ok)
  | .mouseMotionAck =>
    ({ st with sentCount := st.sentCount - SPICE_INPUT_MOTION_ACK_BUNCH },
     if SPICE_INPUT_MOTION_ACK_BUNCH ≤ st.sentCount then .ok else .error)
  | .other _ _ => (st, .ok)

/-- C9: on `INPUTS_MOUSE_MOTION_ACK`, `SPICE_INPUT_MOTION_ACK_BUNCH` is
subtracted from `mouse.sentCount`; the handler returns `Error` exactly
when the prior value of `sentCount` was smaller than the bunch (server
over-ack), and `Ok` otherwise. -/
theorem motion_ack_oversubtract (st : InputsState) :
    (channelInputs_onRead st .mouseMotionAck).1.sentCount =
      st.sentCount - SPICE_INPUT_MOTION_ACK_BUNCH ∧
    ((channelInputs_onRead st .mouseMotionAck).2 = .error ↔
      st.sentCount < SPICE_INPUT_MOTION_ACK_BUNCH) ∧
    ((channelInputs_onRead st .mouseMotionAck).2 = .ok ↔
      SPICE_INPUT_MOTION_ACK_BUNCH ≤ st.sentCount) := by
  unfold channelInputs_onRead SPICE_INPUT_MOTION_ACK_BUNCH
  refine ⟨rfl, ?_, ?_⟩ <;> by_cases h : (4 : Int) ≤ st.sentCount
  · rw [if_pos h]
    constructor
    · intro hx
      exact absurd hx (by simp)
    · intro hx
      exact absurd hx (by omega)
  · rw [if_neg h]
    constructor
    · intro _
      omega
    · intro _
      rfl
  · rw [if_pos h]
    constructor
    · intro _
      omega
    · intro _
      rfl
  · rw [if_neg h]
    constructor
    · intro hx
      exact absurd hx (by simp)
    · intro hx
      exact absurd hx (by omega)

/-! ## Agent transmit queue and server-token credit
(`purespice_takeServerToken`, `spice.c:1306-1321`;
`purespice_agentProcessQueue`, `spice.c:1323-1340`; enqueue sites
`purespice_agentStartMsg` / `purespice_agentWriteMsg`,
`spice.c:1342-1377`; `MSG_MAIN_AGENT_TOKEN` handler,
`spice.c:682-700`). -/

/-- The state touched by the agent transmit path: the Main channel's
connected flag, the atomic `serverTokens` counter, the FIFO agent queue
and (for the model) the trace of frames already written to the socket.
Frames are identified abstractly by naturals. -/
structure TxState where
  connected : Bool
  serverTokens : Nat
  queue : List Nat
  sentFrames : List Nat
deriving DecidableEq, Repr

/-- Shallow embedding of `purespice_takeServerToken` (`spice.c:1306-1321`).
The C CAS retry loop, executed atomically, either observes a
disconnected channel or zero tokens and fails, or decrements
`serverTokens` by exactly one and succeeds. -/
def purespice_takeServerToken (st : TxState) : Bool × TxState :=
  if st.connected = false then (false, st)
  else if st.serverTokens = 0 then (false, st)
  else (true, { st with serverTokens := st.serverTokens - 1 })

/-- Shallow embedding of `purespice_agentProcessQueue`
(`spice.c:1323-1340`): while the queue is non-empty (`queue_peek`) and a
token is taken, the head frame is dequeued and sent under the Main
channel's write lock.  Sends are assumed to succeed. -/
def purespice_agentProcessQueue (st : TxState) : TxState :=
  match h : st.queue with
  | [] => st
  | f :: rest =>
    if (purespice_takeServerToken st).1 then
      purespice_agentProcessQueue
        { connected := (purespice_takeServerToken st).2.connected,
          serverTokens := (purespice_takeServerToken st).2.serverTokens,
          queue := rest,
          sentFrames := (purespice_takeServerToken st).2.sentFrames ++ [f] }
    else st
termination_by st.queue.length
decreasing_by
  simp [h]

theorem agentProcessQueue_eq_nil {st : TxState} (h : st.queue = []) :
    purespice_agentProcessQueue st = st := by
  rw [purespice_agentProcessQueue]
  split
  · rfl
  · rename_i f rest heq
    rw [h] at heq
    cases heq

theorem agentProcessQueue_eq_cons {st : TxState} {f : Nat} {rest : List Nat}
    (h : st.queue = f :: rest) :
    purespice_agentProcessQueue st =
      if (purespice_takeServerToken st).1 then
        purespice_agentProcessQueue
          { connected := (purespice_takeServerToken st).2.connected,
            serverTokens := (purespice_takeServerToken st).2.serverTokens,
            queue := rest,
            sentFrames := (purespice_takeServerToken st).2.sentFrames ++ [f] }
      else st := by
  rw [purespice_agentProcessQueue]
  split
  · rename_i heq
    rw [h] at heq
    cases heq
  · rename_i f2 rest2 heq
    rw [h] at heq
    injection heq with h1 h2
    subst h1
    subst h2
    rfl

theorem takeServerToken_true {st : TxState}
    (h : (purespice_takeServerToken st).1 = true) :
    st.connected = true ∧ 0 < st.serverTokens ∧
    (purespice_takeServerToken st).2.connected = st.connected ∧
    (purespice_takeServerToken st).2.serverTokens = st.serverTokens - 1 ∧
    (purespice_takeServerToken st).2.sentFrames = st.sentFrames ∧
    (purespice_takeServerToken st).2.queue = st.queue := by
  unfold purespice_takeServerToken at *
  by_cases h1 : st.connected = false
  · rw [if_pos h1] at h
    exact absurd h (by simp)
  · rw [if_neg h1] at *
    by_cases h2 : st.serverTokens = 0
    · rw [if_pos h2] at h
      exact absurd h (by simp)
    · rw [if_neg h2] at *
      refine ⟨by revert h1; cases st.connected <;> simp, by omega, rfl, rfl, rfl, rfl⟩

theorem takeServerToken_false {st : TxState}
    (h : (purespice_takeServerToken st).1 = false) :
    (st.connected = false ∨ st.serverTokens = 0) ∧
    (purespice_takeServerToken st).2 = st := by
  unfold purespice_takeServerToken at *
  by_cases h1 : st.connected = false
  · rw [if_pos h1] at *
    exact ⟨Or.inl h1, rfl⟩
  · rw [if_neg h1] at *
    by_cases h2 : st.serverTokens = 0
    · rw [if_pos h2] at *
      exact ⟨Or.inr h2, rfl⟩
    · rw [if_neg h2] at h
      exact absurd h (by simp)

theorem agentProcessQueue_frames (st : TxState) :
    (purespice_agentProcessQueue st).sentFrames ++
      (purespice_agentProcessQueue st).queue = st.sentFrames ++ st.queue := by
  induction st using purespice_agentProcessQueue.induct with
  | case1 st h =>
    rw [agentProcessQueue_eq_nil h]
  | case2 st f rest h htok ih =>
    obtain ⟨hconn, hpos, hc2, ht2, hs2, hq2⟩ := takeServerToken_true htok
    rw [agentProcessQueue_eq_cons h, if_pos htok]
    rw [hc2, ht2, hs2] at ih ⊢
    rw [ih, h]
    simp
  | case3 st f rest h htok =>
    rw [agentProcessQueue_eq_cons h, if_neg htok]

theorem agentProcessQueue_tokens (st : TxState) :
    (purespice_agentProcessQueue st).sentFrames.length +
      (purespice_agentProcessQueue st).serverTokens =
      st.sentFrames.length + st.serverTokens := by
  induction st using purespice_agentProcessQueue.induct with
  | case1 st h =>
    rw [agentProcessQueue_eq_nil h]
  | case2 st f rest h htok ih =>
    obtain ⟨hconn, hpos, hc2, ht2, hs2, hq2⟩ := takeServerToken_true htok
    rw [agentProcessQueue_eq_cons h, if_pos htok]
    rw [hc2, ht2, hs2] at ih ⊢
    rw [ih]
    simp only [List.length_append, List.length_cons, List.length_nil]
    omega
  | case3 st f rest h htok =>
    rw [agentProcessQueue_eq_cons h, if_neg htok]

theorem agentProcessQueue_connected (st : TxState) :
    (purespice_agentProcessQueue st).connected = st.connected := by
  induction st using purespice_agentProcessQueue.induct with
  | case1 st h =>
    rw [agentProcessQueue_eq_nil h]
  | case2 st f rest h htok ih =>
    obtain ⟨hconn, hpos, hc2, ht2, hs2, hq2⟩ := takeServerToken_true htok
    rw [agentProcessQueue_eq_cons h, if_pos htok]
    rw [hc2, ht2, hs2] at ih ⊢
    rw [ih]
  | case3 st f rest h htok =>
    rw [agentProcessQueue_eq_cons h, if_neg htok]

theorem agentProcessQueue_post (st : TxState) :
    (purespice_agentProcessQueue st).queue = [] ∨
    (purespice_agentProcessQueue st).serverTokens = 0 ∨
    (purespice_agentProcessQueue st).connected = false := by
  induction st using purespice_agentProcessQueue.induct with
  | case1 st h =>
    rw [agentProcessQueue_eq_nil h]
    exact Or.inl h
  | case2 st f rest h htok ih =>
    rw [agentProcessQueue_eq_cons h, if_pos htok]
    exact ih
  | case3 st f rest h htok =>
    obtain ⟨hor, _⟩ := takeServerToken_false (by simpa using htok)
    rw [agentProcessQueue_eq_cons h, if_neg htok]
    rcases hor with hc | ht
    · exact Or.inr (Or.inr hc)
    · exact Or.inr (Or.inl ht)

/-- Interleaved agent activity: `enqueueFrame` models
`queue_push(spice.agentQueue, msg)` in `purespice_agentStartMsg` /
`purespice_agentWriteMsg` followed by their `purespice_agentProcessQueue`
call; `grantTokens` models the `MSG_MAIN_AGENT_TOKEN` handler
(`atomic_fetch_add(&spice.serverTokens, num_tokens)` then
`purespice_agentProcessQueue`). -/
inductive TxEvent where
  | enqueueFrame (f : Nat)
  | grantTokens (n : Nat)
deriving DecidableEq, Repr

/-- One agent event applied to the session state. -/
def txStep (st : TxState) : TxEvent → TxState
  | .enqueueFrame f =>
    purespice_agentProcessQueue { st with queue := st.queue ++ [f] }
  | .grantTokens n =>
    purespice_agentProcessQueue
      { st with serverTokens := (st.serverTokens + n) % U32MOD }

/-- A sequence of agent events applied in order. -/
def txRun (st : TxState) : List TxEvent → TxState
  | [] => st
  | e :: es => txRun (txStep st e) es

/-- All frames enqueued by an event sequence, in order. -/
def enqueuedFrames : List TxEvent → List Nat
  | [] => []
  | .enqueueFrame f :: es => f :: enqueuedFrames es
  | .grantTokens _ :: es => enqueuedFrames es

/-- Total number of tokens granted by an event sequence. -/
def grantedTokens : List TxEvent → Nat
  | [] => 0
  | .enqueueFrame _ :: es => grantedTokens es
  | .grantTokens n :: es => n + grantedTokens es

theorem txStep_frames (st : TxState) (e : TxEvent) :
    (txStep st e).sentFrames ++ (txStep st e).queue =
      st.sentFrames ++ st.queue ++ enqueuedFrames [e] := by
  cases e with
  | enqueueFrame f =>
    simp only [txStep, enqueuedFrames]
    rw [agentProcessQueue_frames]
    simp
  | grantTokens n =>
    simp only [txStep, enqueuedFrames]
    rw [agentProcessQueue_frames]
    simp

theorem txStep_tokens (st : TxState) (e : TxEvent) :
    (txStep st e).sentFrames.length + (txStep st e).serverTokens ≤
      st.sentFrames.length + st.serverTokens + grantedTokens [e] := by
  cases e with
  | enqueueFrame f =>
    simp only [txStep, grantedTokens]
    have := agentProcessQueue_tokens { st with queue := st.queue ++ [f] }
    simp only [] at this
    omega
  | grantTokens n =>
    simp only [txStep, grantedTokens]
    have := agentProcessQueue_tokens
      { st with serverTokens := (st.serverTokens + n) % U32MOD }
    simp only [] at this
    have hm : (st.serverTokens + n) % U32MOD ≤ st.serverTokens + n :=
      Nat.mod_le _ _
    omega

theorem txStep_connected (st : TxState) (e : TxEvent) :
    (txStep st e).connected = st.connected := by
  cases e with
  | enqueueFrame f =>
    simp only [txStep]
    rw [agentProcessQueue_connected]
  | grantTokens n =>
    simp only [txStep]
    rw [agentProcessQueue_connected]

theorem txRun_frames : ∀ (es : List TxEvent) (st : TxState),
    (txRun st es).sentFrames ++ (txRun st es).queue =
      st.sentFrames ++ st.queue ++ enqueuedFrames es := by
  intro es
  induction es with
  | nil =>
    intro st
    simp [txRun, enqueuedFrames]
  | cons e es ih =>
    intro st
    unfold txRun
    rw [ih (txStep st e)]
    have h1 := txStep_frames st e
    rw [h1]
    cases e <;> simp [enqueuedFrames]

theorem txRun_tokens : ∀ (es : List TxEvent) (st : TxState),
    (txRun st es).sentFrames.length + (txRun st es).serverTokens ≤
      st.sentFrames.length + st.serverTokens + grantedTokens es := by
  intro es
  induction es with
  | nil =>
    intro st
    simp [txRun, grantedTokens]
  | cons e es ih =>
    intro st
    unfold txRun
    have h1 := ih (txStep st e)
    have h2 := txStep_tokens st e
    cases e with
    | enqueueFrame f =>
      simp only [grantedTokens] at h2 ⊢
      omega
    | grantTokens n =>
      simp only [grantedTokens] at h2 ⊢
      omega

/-- C4: for any interleaving of agent-frame enqueues and token grants
(modelled atomically, as the CAS discipline of the source enforces),
frames leave the agent TX queue in FIFO enqueue order, each transmission
consumes exactly one `serverTokens` credit, the drain stops only when the
queue is empty or `serverTokens` is zero (or the channel disconnected),
and the number of frames transmitted never exceeds the initial token
budget plus the total tokens granted. -/
theorem agent_queue_fifo_token_bound :
    (∀ st : TxState,
      (purespice_agentProcessQueue st).sentFrames.length +
          (purespice_agentProcessQueue st).serverTokens =
        st.sentFrames.length + st.serverTokens) ∧
    (∀ st : TxState,
      (purespice_agentProcessQueue st).queue = [] ∨
      (purespice_agentProcessQueue st).serverTokens = 0 ∨
      (purespice_agentProcessQueue st).connected = false) ∧
    (∀ (t0 : Nat) (es : List TxEvent),
      (txRun { connected := true, serverTokens := t0, queue := [],
               sentFrames := [] } es).sentFrames ++
        (txRun { connected := true, serverTokens := t0, queue := [],
                 sentFrames := [] } es).queue = enqueuedFrames es ∧
      (txRun { connected := true, serverTokens := t0, queue := [],
               sentFrames := [] } es).sentFrames.length ≤
        t0 + grantedTokens es) := by
  refine ⟨agentProcessQueue_tokens, agentProcessQueue_post, ?_⟩
  intro t0 es
  constructor
  · have := txRun_frames es
      { connected := true, serverTokens := t0, queue := [], sentFrames := [] }
    simpa using this
  · have := txRun_tokens es
      { connected := true, serverTokens := t0, queue := [], sentFrames := [] }
    simp only [List.length_nil] at this
    omega

/-! ## VDAgent sub-protocol constants (from `spice/vd_agent.h`). -/

/-- VDAgent protocol version (`VD_AGENT_PROTOCOL`). -/
def VD_AGENT_PROTOCOL : Nat := 1

/-- Message type `VD_AGENT_CLIPBOARD`. -/
def VD_AGENT_CLIPBOARD : Nat := 4

/-- Message type `VD_AGENT_ANNOUNCE_CAPABILITIES`. -/
def VD_AGENT_ANNOUNCE_CAPABILITIES : Nat := 6

/-- Message type `VD_AGENT_CLIPBOARD_GRAB`. -/
def VD_AGENT_CLIPBOARD_GRAB : Nat := 7

/-- Message type `VD_AGENT_CLIPBOARD_REQUEST`. -/
def VD_AGENT_CLIPBOARD_REQUEST : Nat := 8

/-- Message type `VD_AGENT_CLIPBOARD_RELEASE`. -/
def VD_AGENT_CLIPBOARD_RELEASE : Nat := 9

/-- Capability bit `VD_AGENT_CAP_CLIPBOARD_BY_DEMAND`. -/
def VD_AGENT_CAP_CLIPBOARD_BY_DEMAND : Nat := 5

/-- Capability bit `VD_AGENT_CAP_CLIPBOARD_SELECTION`. -/
def VD_AGENT_CAP_CLIPBOARD_SELECTION : Nat := 6

/-- Selection id `VD_AGENT_CLIPBOARD_SELECTION_CLIPBOARD`. -/
def VD_AGENT_CLIPBOARD_SELECTION_CLIPBOARD : Nat := 0

/-! ## Outgoing clipboard release
(`purespice_clipboardRelease`, `spice.c:1771-1796`). -/

/-- The session state consulted by `purespice_clipboardRelease`. -/
structure ClipTxState where
  hasAgent : Bool
  cbSelection : Bool
  cbClientGrabbed : Bool
deriving DecidableEq, Repr

/-- An agent frame handed to the TX queue: `startMsg ty sz` is
`purespice_agentStartMsg(ty, sz)` (the `VDAgentMessage` header packet),
`writeMsg bytes` is `purespice_agentWriteMsg(bytes, bytes.length)`. -/
inductive AgentTxMsg where
  | startMsg (ty size : Nat)
  | writeMsg (bytes : List Nat)
deriving DecidableEq, Repr

/-- Shallow embedding of `purespice_clipboardRelease`
(`spice.c:1771-1796`): without an agent it fails; with nothing client-held
it returns `true` having done nothing; otherwise it enqueues a
`VD_AGENT_CLIPBOARD_RELEASE` (with a 4-byte selection record when
selection is negotiated) and clears `cbClientGrabbed`.  Queue operations
are assumed to succeed. -/
def purespice_clipboardRelease (st : ClipTxState) :
    Bool × ClipTxState × List AgentTxMsg :=
  if st.hasAgent = false then (false, st, [])
  else if st.cbClientGrabbed = false then (true, st, [])
  else if st.cbSelection then
    (true, { st with cbClientGrabbed := false },
     [.startMsg VD_AGENT_CLIPBOARD_RELEASE 4,
      .writeMsg [VD_AGENT_CLIPBOARD_SELECTION_CLIPBOARD, 0, 0, 0]])
  else
    (true, { st with cbClientGrabbed := false },
     [.startMsg VD_AGENT_CLIPBOARD_RELEASE 0])

/-- C10: if `clipboardRelease()` is called while the agent is present but
the client holds no clipboard grab, it returns `true` without enqueueing
any frame and without modifying any state. -/
theorem clipboard_release_no_grab (st : ClipTxState)
    (ha : st.hasAgent = true) (hg : st.cbClientGrabbed = false) :
    purespice_clipboardRelease st = (true, st, []) := by
  unfold purespice_clipboardRelease
  rw [ha, hg]
  simp

/-- Witness for C10. -/
theorem clipboard_release_no_grab_witness :
    ({ hasAgent := true, cbSelection := false, cbClientGrabbed := false }
        : ClipTxState).hasAgent = true ∧
    ({ hasAgent := true, cbSelection := false, cbClientGrabbed := false }
        : ClipTxState).cbClientGrabbed = false ∧
    purespice_clipboardRelease
        { hasAgent := true, cbSelection := false, cbClientGrabbed := false } =
      (true, { hasAgent := true, cbSelection := false, cbClientGrabbed := false }, []) :=
  ⟨rfl, rfl, clipboard_release_no_grab _ rfl rfl⟩

/-! ## VDAgent message parsing on the Main channel
(`purespice_agentProcess`, `spice.c:1087-1270`;
`purespice_agentOnClipboard`, `spice.c:1273-1282`).

A `MSG_MAIN_AGENT_DATA` chunk hands `purespice_agentProcess` its declared
byte count (`dataSize = header.size`) and the socket stream.  Reads
(`purespice_readNL`) consume bytes from the front of the stream; every
integer on the wire is little-endian. -/

/-- Little-endian decoding of a `uint32_t` from the first four bytes of a
stream. -/
def decodeU32 (l : List Nat) : Nat :=
  l.getD 0 0 + 256 * l.getD 1 0 + 65536 * l.getD 2 0 + 16777216 * l.getD 3 0

/-- Little-endian encoding of a `uint32_t`. -/
def encodeU32 (n : Nat) : List Nat :=
  [n % 256, n / 256 % 256, n / 65536 % 256, n / 16777216 % 256]

theorem decodeU32_encodeU32 (n : Nat) (r : List Nat) :
    decodeU32 (encodeU32 n ++ r) = n % U32MOD := by
  unfold decodeU32 encodeU32 U32MOD
  simp only [List.cons_append, List.nil_append, List.getD_cons_zero,
    List.getD_cons_succ]
  omega

theorem encodeU32_length (n : Nat) : (encodeU32 n).length = 4 := rfl

/-- Clipboard type tag `VD_AGENT_CLIPBOARD_UTF8_TEXT`. -/
def VD_AGENT_CLIPBOARD_UTF8_TEXT : Nat := 1

/-- Clipboard type tag `VD_AGENT_CLIPBOARD_IMAGE_PNG`. -/
def VD_AGENT_CLIPBOARD_IMAGE_PNG : Nat := 2

/-- Clipboard type tag `VD_AGENT_CLIPBOARD_IMAGE_BMP`. -/
def VD_AGENT_CLIPBOARD_IMAGE_BMP : Nat := 3

/-- Clipboard type tag `VD_AGENT_CLIPBOARD_IMAGE_TIFF`. -/
def VD_AGENT_CLIPBOARD_IMAGE_TIFF : Nat := 4

/-- Clipboard type tag `VD_AGENT_CLIPBOARD_IMAGE_JPG`. -/
def VD_AGENT_CLIPBOARD_IMAGE_JPG : Nat := 5

/-- Shallow embedding of `agent_type_to_purespice_type`
(`spice.c:1675-1687`). -/
def agent_type_to_purespice_type (ty : Nat) : PSDataType :=
  if ty = VD_AGENT_CLIPBOARD_UTF8_TEXT then .text
  else if ty = VD_AGENT_CLIPBOARD_IMAGE_PNG then .png
  else if ty = VD_AGENT_CLIPBOARD_IMAGE_BMP then .bmp
  else if ty = VD_AGENT_CLIPBOARD_IMAGE_TIFF then .tiff
  else if ty = VD_AGENT_CLIPBOARD_IMAGE_JPG then .jpeg
  else .none

/-- Word `i` of the `caps` array of a `VDAgentAnnounceCapabilities` body
(the body starts with the 4-byte `request` field). -/
def capsWord (body : List Nat) (i : Nat) : Nat :=
  decodeU32 ((body.drop (4 + 4 * i)).take 4)

/-- Shallow embedding of the `VD_AGENT_HAS_CAPABILITY(caps, size, cap)`
macro: `(cap / 32) < size && (caps[cap / 32] & (1 << (cap % 32)))`. -/
def VD_AGENT_HAS_CAPABILITY (body : List Nat) (capsSize cap : Nat) : Bool :=
  decide (cap / 32 < capsSize) && (capsWord body (cap / 32)).testBit (cap % 32)

/-- Agent-related session state touched by `purespice_agentProcess`. -/
structure AgentState where
  cbSelection : Bool
  cbSupported : Bool
  cbAgentGrabbed : Bool
  cbClientGrabbed : Bool
  cbType : PSDataType
  cbBuffer : Option (List Nat)
  cbRemain : Nat
  cbSize : Nat
deriving DecidableEq, Repr

/-- Callback invocations and outgoing agent replies triggered by
`purespice_agentProcess` (each fires when the corresponding callback
pointer is registered; `capsSent` records the
`purespice_agentSendCaps(false)` reply). -/
inductive AgentEvent where
  | clipboardData (ty : PSDataType) (buf : List Nat)
  | clipboardNotice (ty : PSDataType)
  | clipboardRequested (ty : PSDataType)
  | clipboardReleased
  | capsSent (request : Bool)
deriving DecidableEq, Repr

/-- Result of one `purespice_agentProcess` call: status, updated state,
the unread remainder of the socket stream, and the emitted events. -/
structure AgentResult where
  status : PSStatus
  st : AgentState
  stream : List Nat
  events : List AgentEvent
deriving DecidableEq, Repr

/-- Shallow embedding of `purespice_agentOnClipboard`
(`spice.c:1273-1282`): fires the data callback with the accumulated
buffer, frees it, and zeroes `cbSize` and `cbRemain`. -/
def purespice_agentOnClipboard (st : AgentState) : AgentState × AgentEvent :=
  ({ st with cbBuffer := Option.none, cbSize := 0, cbRemain := 0 },
   .clipboardData st.cbType (st.cbBuffer.getD []))

def agentAnnounceCaps (st : AgentState) (msize : Nat) (s1 : List Nat) :
    AgentResult :=
  if 1024 < msize then
    { status := .error, st := st, stream := s1, events := [] }
  else
    let body := s1.take msize
    let s2 := s1.drop msize
    let capsSize := (msize - 4) / 4
    let req := decodeU32 (body.take 4)
    let st1 := { st with
      cbSupported :=
        VD_AGENT_HAS_CAPABILITY body capsSize VD_AGENT_CAP_CLIPBOARD_BY_DEMAND ||
        VD_AGENT_HAS_CAPABILITY body capsSize VD_AGENT_CAP_CLIPBOARD_SELECTION,
      cbSelection :=
        VD_AGENT_HAS_CAPABILITY body capsSize VD_AGENT_CAP_CLIPBOARD_SELECTION }
    if req ≠ 0 then
      { status := .ok, st := st1, stream := s2, events := [.capsSent false] }
    else
      { status := .ok, st := st1, stream := s2, events := [] }

/-- The `VD_AGENT_CLIPBOARD` arm of `purespice_agentProcess`
(`spice.c:1198-1225`): `remaining2` and `ds3` are `remaining` and
`dataSize` after the selection record and the 4-byte type have been
consumed, and `s3` is the stream positioned on the clipboard payload. -/
def agentClipboardRecv (st : AgentState) (remaining2 ds3 : Nat)
    (s3 : List Nat) : AgentResult :=
  if st.cbBuffer.isSome then
    { status := .error, st := st, stream := s3, events := [] }
  else
    let r := min remaining2 ds3
    let st1 := { st with
      cbBuffer := Option.some (s3.take r),
      cbRemain := remaining2 - r,
      cbSize := r }
    if st1.cbRemain = 0 then
      { status := .ok, st := (purespice_agentOnClipboard st1).1,
        stream := s3.drop r,
        events := [(purespice_agentOnClipboard st1).2] }
    else
      { status := .ok, st := st1, stream := s3.drop r, events := [] }

/-- The `VD_AGENT_CLIPBOARD_GRAB` arm of `purespice_agentProcess`
(`spice.c:1233-1265`): `remaining1` is `remaining` after the selection
record and `s2` the stream positioned on the type-tag list. -/
def agentClipboardGrab (st : AgentState) (remaining1 : Nat)
    (s2 : List Nat) : AgentResult :=
  if remaining1 = 0 then
    { status := .ok, st := st, stream := s2, events := [] }
  else if 1024 < remaining1 then
    { status := .error, st := st, stream := s2, events := [] }
  else
    let types := s2.take remaining1
    let s3 := s2.drop remaining1
    let ty0 := decodeU32 (types.take 4)
    let st1 := { st with
      cbType := agent_type_to_purespice_type ty0,
      cbAgentGrabbed := true,
      cbClientGrabbed := false }
    if st.cbSelection then
      { status := .ok, st := st1, stream := s3, events := [] }
    else
      { status := .ok, st := st1, stream := s3,
        events := [.clipboardNotice (agent_type_to_purespice_type ty0)] }

/-- The clipboard-family dispatch of `purespice_agentProcess`
(`spice.c:1164-1266`): strip the optional selection record, then handle
`CLIPBOARD_RELEASE`, `CLIPBOARD`/`CLIPBOARD_REQUEST` (4-byte type tag),
or `CLIPBOARD_GRAB`. -/
def agentClipboardFamily (st : AgentState) (ds1 mtype msize : Nat)
    (s1 : List Nat) : AgentResult :=
  let s2 := if st.cbSelection then s1.drop 4 else s1
  let remaining1 := if st.cbSelection then u32sub msize 4 else msize
  let ds2 := if st.cbSelection then u32sub ds1 4 else ds1
  if mtype = VD_AGENT_CLIPBOARD_RELEASE then
    { status := .ok, st := { st with cbAgentGrabbed := false },
      stream := s2, events := [.clipboardReleased] }
  else if mtype = VD_AGENT_CLIPBOARD ∨ mtype = VD_AGENT_CLIPBOARD_REQUEST then
    let ty := decodeU32 (s2.take 4)
    let s3 := s2.drop 4
    let remaining2 := u32sub remaining1 4
    let ds3 := u32sub ds2 4
    if mtype = VD_AGENT_CLIPBOARD then
      agentClipboardRecv st remaining2 ds3 s3
    else
      { status := .ok, st := st, stream := s3,
        events := [.clipboardRequested (agent_type_to_purespice_type ty)] }
  else
    agentClipboardGrab st remaining1 s2

/-- Dispatch of a parsed `VDAgentMessage` header: the body of
`purespice_agentProcess` (`spice.c:1126-1270`) after the 20-byte header
(`protocol:u32, type:u32, opaque:u64, size:u32`) has been read from the
stream; `s1` is the stream positioned after the header. -/
def agentDispatch (st : AgentState) (dataSize protocol mtype msize : Nat)
    (s1 : List Nat) : AgentResult :=
  let ds1 := u32sub dataSize 20
  if protocol ≠ VD_AGENT_PROTOCOL then
    { status := .error, st := st, stream := s1, events := [] }
  else if mtype = VD_AGENT_ANNOUNCE_CAPABILITIES then
    agentAnnounceCaps st msize s1
  else if mtype = VD_AGENT_CLIPBOARD ∨ mtype = VD_AGENT_CLIPBOARD_GRAB ∨
          mtype = VD_AGENT_CLIPBOARD_REQUEST ∨
          mtype = VD_AGENT_CLIPBOARD_RELEASE then
    agentClipboardFamily st ds1 mtype msize s1
  else
    { status := .ok, st := st, stream := s1.drop msize, events := [] }

/-- Shallow embedding of `purespice_agentProcess` (`spice.c:1087-1270`).
If a clipboard reassembly is outstanding (`cbRemain != 0`) the chunk
continues filling the buffer (`spice.c:1090-1110`); otherwise a
`VDAgentMessage` header is read little-endian from the stream and handed
to `agentDispatch`. -/
def purespice_agentProcess (st : AgentState) (dataSize : Nat)
    (stream : List Nat) : AgentResult :=
  if st.cbRemain ≠ 0 then
    let r := min st.cbRemain dataSize
    let st1 : AgentState := { st with
      cbBuffer := Option.some (st.cbBuffer.getD [] ++ stream.take r),
      cbRemain := st.cbRemain - r,
      cbSize := st.cbSize + r }
    if st1.cbRemain = 0 then
      { status := .ok, st := (purespice_agentOnClipboard st1).1,
        stream := stream.drop r,
        events := [(purespice_agentOnClipboard st1).2] }
    else
      { status := .ok, st := st1, stream := stream.drop r, events := [] }
  else
    agentDispatch st dataSize (decodeU32 (stream.take 4))
      (decodeU32 ((stream.drop 4).take 4))
      (decodeU32 ((stream.drop 16).take 4))
      (stream.drop 20)

/-- Sequential processing of a list of `MSG_MAIN_AGENT_DATA` chunks, each
passed to `purespice_agentProcess` with its own byte count as
`header.size` (the steady-state loop of `purespice_onMainChannelRead`,
`spice.c:670-680`); an `Error` aborts the run. -/
def runAgentChunks (st : AgentState) :
    List (List Nat) → PSStatus × AgentState × List AgentEvent
  | [] => (.ok, st, [])
  | c :: cs =>
    let r := purespice_agentProcess st c.length c
    match r.status with
    | .error => (.error, r.st, r.events)
    | _ =>
      ((runAgentChunks r.st cs).1, (runAgentChunks r.st cs).2.1,
       r.events ++ (runAgentChunks r.st cs).2.2)

theorem decodeU32_encodeU32n (n : Nat) : decodeU32 (encodeU32 n) = n % U32MOD := by
  have h := decodeU32_encodeU32 n []
  rw [List.append_nil] at h
  exact h

/-- Reading the four `VDAgentMessage` header fields off a well-formed
stream: `purespice_agentProcess` on `header ++ body` (with `cbRemain = 0`)
is `agentDispatch` applied to the decoded fields and the body. -/
theorem agentProcess_header (st : AgentState) (dataSize p t sz : Nat)
    (opq body : List Nat) (hop : opq.length = 8) (hst : st.cbRemain = 0) :
    purespice_agentProcess st dataSize
        (encodeU32 p ++ (encodeU32 t ++ (opq ++ (encodeU32 sz ++ body)))) =
      agentDispatch st dataSize (p % U32MOD) (t % U32MOD) (sz % U32MOD) body := by
  unfold purespice_agentProcess
  rw [if_neg (by simp [hst])]
  have e1 : (encodeU32 p ++ (encodeU32 t ++ (opq ++ (encodeU32 sz ++ body)))).take 4
      = encodeU32 p := List.take_left' (encodeU32_length p)
  have e2 : (encodeU32 p ++ (encodeU32 t ++ (opq ++ (encodeU32 sz ++ body)))).drop 4
      = encodeU32 t ++ (opq ++ (encodeU32 sz ++ body)) :=
    List.drop_left' (encodeU32_length p)
  have e3 : (encodeU32 t ++ (opq ++ (encodeU32 sz ++ body))).take 4 = encodeU32 t :=
    List.take_left' (encodeU32_length t)
  have e4 : (encodeU32 p ++ (encodeU32 t ++ (opq ++ (encodeU32 sz ++ body)))).drop 16
      = encodeU32 sz ++ body := by
    rw [show (16 : Nat) = (encodeU32 p).length + 12 from by rw [encodeU32_length]]
    rw [List.drop_append]
    rw [show (12 : Nat) = (encodeU32 t).length + 8 from by rw [encodeU32_length]]
    rw [List.drop_append]
    rw [show (8 : Nat) = opq.length + 0 from by rw [hop]]
    rw [List.drop_append]
    rfl
  have e5 : (encodeU32 p ++ (encodeU32 t ++ (opq ++ (encodeU32 sz ++ body)))).drop 20
      = body := by
    rw [show (20 : Nat) = (encodeU32 p).length + 16 from by rw [encodeU32_length]]
    rw [List.drop_append]
    rw [show (16 : Nat) = (encodeU32 t).length + 12 from by rw [encodeU32_length]]
    rw [List.drop_append]
    rw [show (12 : Nat) = opq.length + 4 from by rw [hop]]
    rw [List.drop_append]
    rw [show (4 : Nat) = (encodeU32 sz).length + 0 from by rw [encodeU32_length]]
    rw [List.drop_append]
    rfl
  rw [e1, e2, e3, e4, e5]
  rw [List.take_left' (encodeU32_length sz)]
  rw [decodeU32_encodeU32n, decodeU32_encodeU32n, decodeU32_encodeU32n]

theorem agentClipboardRecv_guard (st : AgentState) (remaining2 ds3 : Nat)
    (s3 buf : List Nat) (hbuf : st.cbBuffer = Option.some buf) :
    agentClipboardRecv st remaining2 ds3 s3 =
      { status := .error, st := st, stream := s3, events := [] } := by
  unfold agentClipboardRecv
  rw [hbuf]
  rw [if_pos (by simp)]

theorem agentAnnounceCaps_oversize (st : AgentState) (msize : Nat)
    (s1 : List Nat) (hsz : 1024 < msize) :
    agentAnnounceCaps st msize s1 =
      { status := .error, st := st, stream := s1, events := [] } := by
  unfold agentAnnounceCaps
  rw [if_pos hsz]

theorem agentClipboardGrab_oversize (st : AgentState) (remaining1 : Nat)
    (s2 : List Nat) (hsz : 1024 < remaining1) :
    agentClipboardGrab st remaining1 s2 =
      { status := .error, st := st, stream := s2, events := [] } := by
  unfold agentClipboardGrab
  rw [if_neg (by omega), if_pos hsz]

theorem agentDispatch_clipboard (st : AgentState) (dataSize msize : Nat)
    (s1 : List Nat) :
    agentDispatch st dataSize VD_AGENT_PROTOCOL VD_AGENT_CLIPBOARD msize s1 =
      agentClipboardFamily st (u32sub dataSize 20) VD_AGENT_CLIPBOARD msize s1 := by
  simp [agentDispatch, VD_AGENT_PROTOCOL, VD_AGENT_CLIPBOARD,
    VD_AGENT_ANNOUNCE_CAPABILITIES, VD_AGENT_CLIPBOARD_GRAB,
    VD_AGENT_CLIPBOARD_REQUEST, VD_AGENT_CLIPBOARD_RELEASE]

theorem agentDispatch_grab (st : AgentState) (dataSize msize : Nat)
    (s1 : List Nat) :
    agentDispatch st dataSize VD_AGENT_PROTOCOL VD_AGENT_CLIPBOARD_GRAB msize s1 =
      agentClipboardFamily st (u32sub dataSize 20) VD_AGENT_CLIPBOARD_GRAB msize s1 := by
  simp [agentDispatch, VD_AGENT_PROTOCOL, VD_AGENT_CLIPBOARD,
    VD_AGENT_ANNOUNCE_CAPABILITIES, VD_AGENT_CLIPBOARD_GRAB,
    VD_AGENT_CLIPBOARD_REQUEST, VD_AGENT_CLIPBOARD_RELEASE]

theorem agentDispatch_announce (st : AgentState) (dataSize msize : Nat)
    (s1 : List Nat) :
    agentDispatch st dataSize VD_AGENT_PROTOCOL VD_AGENT_ANNOUNCE_CAPABILITIES
        msize s1 = agentAnnounceCaps st msize s1 := by
  simp [agentDispatch, VD_AGENT_PROTOCOL, VD_AGENT_ANNOUNCE_CAPABILITIES]

theorem agentClipboardFamily_clipboard (st : AgentState) (ds1 msize : Nat)
    (s1 : List Nat) :
    agentClipboardFamily st ds1 VD_AGENT_CLIPBOARD msize s1 =
      agentClipboardRecv st
        (u32sub (if st.cbSelection then u32sub msize 4 else msize) 4)
        (u32sub (if st.cbSelection then u32sub ds1 4 else ds1) 4)
        ((if st.cbSelection then s1.drop 4 else s1).drop 4) := by
  simp [agentClipboardFamily, VD_AGENT_CLIPBOARD, VD_AGENT_CLIPBOARD_GRAB,
    VD_AGENT_CLIPBOARD_REQUEST, VD_AGENT_CLIPBOARD_RELEASE]

theorem agentClipboardFamily_grab (st : AgentState) (ds1 msize : Nat)
    (s1 : List Nat) :
    agentClipboardFamily st ds1 VD_AGENT_CLIPBOARD_GRAB msize s1 =
      agentClipboardGrab st
        (if st.cbSelection then u32sub msize 4 else msize)
        (if st.cbSelection then s1.drop 4 else s1) := by
  simp [agentClipboardFamily, VD_AGENT_CLIPBOARD, VD_AGENT_CLIPBOARD_GRAB,
    VD_AGENT_CLIPBOARD_REQUEST, VD_AGENT_CLIPBOARD_RELEASE]

/-- C7: if a `VD_AGENT_CLIPBOARD` message is parsed by the Main-channel
agent parser while a clipboard reassembly buffer is outstanding
(`cbBuffer` non-null), the parser returns `Error` without touching the
state or firing any callback (`if (spice.cbBuffer) return PS_STATUS_ERROR;`,
`spice.c:1200-1201`); consequently at most one clipboard reassembly is in
progress at any time. -/
theorem clipboard_second_reassembly_error (st : AgentState)
    (dataSize sz : Nat) (opq body buf : List Nat)
    (hop : opq.length = 8) (hst : st.cbRemain = 0)
    (hbuf : st.cbBuffer = Option.some buf) :
    (purespice_agentProcess st dataSize
        (encodeU32 VD_AGENT_PROTOCOL ++ (encodeU32 VD_AGENT_CLIPBOARD ++
          (opq ++ (encodeU32 sz ++ body))))).status = .error ∧
    (purespice_agentProcess st dataSize
        (encodeU32 VD_AGENT_PROTOCOL ++ (encodeU32 VD_AGENT_CLIPBOARD ++
          (opq ++ (encodeU32 sz ++ body))))).st = st ∧
    (purespice_agentProcess st dataSize
        (encodeU32 VD_AGENT_PROTOCOL ++ (encodeU32 VD_AGENT_CLIPBOARD ++
          (opq ++ (encodeU32 sz ++ body))))).events = [] := by
  rw [agentProcess_header st dataSize VD_AGENT_PROTOCOL VD_AGENT_CLIPBOARD sz
      opq body hop hst]
  rw [show VD_AGENT_PROTOCOL % U32MOD = VD_AGENT_PROTOCOL from by decide]
  rw [show VD_AGENT_CLIPBOARD % U32MOD = VD_AGENT_CLIPBOARD from by decide]
  rw [agentDispatch_clipboard, agentClipboardFamily_clipboard]
  rw [agentClipboardRecv_guard st _ _ _ buf hbuf]
  exact ⟨rfl, rfl, rfl⟩

/-- Witness for C7: a fresh `CLIPBOARD` message arriving while `[1, 2]`
is still being reassembled is rejected with `Error`. -/
theorem clipboard_second_reassembly_error_witness :
    (List.replicate 8 0 : List Nat).length = 8 ∧
    ({ cbSelection := false, cbSupported := false, cbAgentGrabbed := false,
       cbClientGrabbed := false, cbType := .none,
       cbBuffer := Option.some [1, 2], cbRemain := 0, cbSize := 0 }
       : AgentState).cbRemain = 0 ∧
    (purespice_agentProcess
        { cbSelection := false, cbSupported := false, cbAgentGrabbed := false,
          cbClientGrabbed := false, cbType := .none,
          cbBuffer := Option.some [1, 2], cbRemain := 0, cbSize := 0 }
        29
        (encodeU32 VD_AGENT_PROTOCOL ++ (encodeU32 VD_AGENT_CLIPBOARD ++
          (List.replicate 8 0 ++
            (encodeU32 9 ++ [0, 0, 0, 0, 7, 8, 9, 10, 11]))))).status = .error :=
  ⟨rfl, rfl,
   (clipboard_second_reassembly_error _ 29 9 (List.replicate 8 0)
     [0, 0, 0, 0, 7, 8, 9, 10, 11] [1, 2] rfl rfl rfl).1⟩

/-- C6 (amended): an `ANNOUNCE_CAPABILITIES` whose declared size exceeds
1024 is rejected with `Error` without reading the message body; a
`CLIPBOARD_GRAB` is rejected with `Error`, without reading the type-tag
list, when the size remaining after the optional 4-byte selection record
exceeds 1024 — that is, when the declared size exceeds 1024 without
selection negotiated, and when it exceeds 1028 with selection negotiated
(the selection record itself having already been read). -/
theorem agent_size_guard :
    (∀ (st : AgentState) (dataSize sz : Nat) (opq body : List Nat),
      opq.length = 8 → st.cbRemain = 0 → 1024 < sz → sz < U32MOD →
      purespice_agentProcess st dataSize
          (encodeU32 VD_AGENT_PROTOCOL ++
            (encodeU32 VD_AGENT_ANNOUNCE_CAPABILITIES ++
              (opq ++ (encodeU32 sz ++ body)))) =
        { status := .error, st := st, stream := body, events := [] }) ∧
    (∀ (st : AgentState) (dataSize sz : Nat) (opq body : List Nat),
      opq.length = 8 → st.cbRemain = 0 → st.cbSelection = false →
      1024 < sz → sz < U32MOD →
      purespice_agentProcess st dataSize
          (encodeU32 VD_AGENT_PROTOCOL ++
            (encodeU32 VD_AGENT_CLIPBOARD_GRAB ++
              (opq ++ (encodeU32 sz ++ body)))) =
        { status := .error, st := st, stream := body, events := [] }) ∧
    (∀ (st : AgentState) (dataSize sz : Nat) (opq sel rest : List Nat),
      opq.length = 8 → st.cbRemain = 0 → st.cbSelection = true →
      sel.length = 4 → 1028 < sz → sz < U32MOD →
      purespice_agentProcess st dataSize
          (encodeU32 VD_AGENT_PROTOCOL ++
            (encodeU32 VD_AGENT_CLIPBOARD_GRAB ++
              (opq ++ (encodeU32 sz ++ (sel ++ rest))))) =
        { status := .error, st := st, stream := rest, events := [] }) := by
  refine ⟨?_, ?_, ?_⟩
  · intro st dataSize sz opq body hop hst hsz hszU
    rw [agentProcess_header st dataSize VD_AGENT_PROTOCOL
        VD_AGENT_ANNOUNCE_CAPABILITIES sz opq body hop hst]
    rw [show VD_AGENT_PROTOCOL % U32MOD = VD_AGENT_PROTOCOL from by decide]
    rw [show VD_AGENT_ANNOUNCE_CAPABILITIES % U32MOD =
        VD_AGENT_ANNOUNCE_CAPABILITIES from by decide]
    rw [Nat.mod_eq_of_lt hszU]
    rw [agentDispatch_announce]
    exact agentAnnounceCaps_oversize st sz body hsz
  · intro st dataSize sz opq body hop hst hsel hsz hszU
    rw [agentProcess_header st dataSize VD_AGENT_PROTOCOL
        VD_AGENT_CLIPBOARD_GRAB sz opq body hop hst]
    rw [show VD_AGENT_PROTOCOL % U32MOD = VD_AGENT_PROTOCOL from by decide]
    rw [show VD_AGENT_CLIPBOARD_GRAB % U32MOD = VD_AGENT_CLIPBOARD_GRAB
      from by decide]
    rw [Nat.mod_eq_of_lt hszU]
    rw [agentDispatch_grab, agentClipboardFamily_grab, hsel]
    rw [if_neg Bool.false_ne_true, if_neg Bool.false_ne_true]
    exact agentClipboardGrab_oversize st sz body hsz
  · intro st dataSize sz opq sel rest hop hst hsel hlen hsz hszU
    rw [agentProcess_header st dataSize VD_AGENT_PROTOCOL
        VD_AGENT_CLIPBOARD_GRAB sz opq (sel ++ rest) hop hst]
    rw [show VD_AGENT_PROTOCOL % U32MOD = VD_AGENT_PROTOCOL from by decide]
    rw [show VD_AGENT_CLIPBOARD_GRAB % U32MOD = VD_AGENT_CLIPBOARD_GRAB
      from by decide]
    rw [Nat.mod_eq_of_lt hszU]
    rw [agentDispatch_grab, agentClipboardFamily_grab, hsel]
    rw [if_pos rfl, if_pos rfl]
    rw [u32sub_of_le (by omega) hszU]
    rw [List.drop_left' hlen]
    exact agentClipboardGrab_oversize st (sz - 4) rest (by omega)

/-- Witness for C6 (amended): an `ANNOUNCE_CAPABILITIES` of declared size
2000 and a selection-prefixed `CLIPBOARD_GRAB` of declared size 1033 are
both rejected. -/
theorem agent_size_guard_witness :
    (List.replicate 8 0 : List Nat).length = 8 ∧
    purespice_agentProcess
        { cbSelection := false, cbSupported := false, cbAgentGrabbed := false,
          cbClientGrabbed := false, cbType := .none, cbBuffer := Option.none,
          cbRemain := 0, cbSize := 0 }
        2020
        (encodeU32 VD_AGENT_PROTOCOL ++
          (encodeU32 VD_AGENT_ANNOUNCE_CAPABILITIES ++
            (List.replicate 8 0 ++ (encodeU32 2000 ++ [])))) =
      { status := .error,
        st := { cbSelection := false, cbSupported := false,
                cbAgentGrabbed := false, cbClientGrabbed := false,
                cbType := .none, cbBuffer := Option.none,
                cbRemain := 0, cbSize := 0 },
        stream := [], events := [] } ∧
    purespice_agentProcess
        { cbSelection := true, cbSupported := false, cbAgentGrabbed := false,
          cbClientGrabbed := false, cbType := .none, cbBuffer := Option.none,
          cbRemain := 0, cbSize := 0 }
        1053
        (encodeU32 VD_AGENT_PROTOCOL ++
          (encodeU32 VD_AGENT_CLIPBOARD_GRAB ++
            (List.replicate 8 0 ++ (encodeU32 1033 ++ ([9, 9, 9, 9] ++ []))))) =
      { status := .error,
        st := { cbSelection := true, cbSupported := false,
                cbAgentGrabbed := false, cbClientGrabbed := false,
                cbType := .none, cbBuffer := Option.none,
                cbRemain := 0, cbSize := 0 },
        stream := [], events := [] } :=
  ⟨rfl,
   agent_size_guard.1 _ 2020 2000 (List.replicate 8 0) [] rfl rfl
     (by decide) (by decide),
   agent_size_guard.2.2 _ 1053 1033 (List.replicate 8 0) [9, 9, 9, 9] [] rfl rfl
     rfl rfl (by decide) (by decide)⟩

/-- Counterexample to C6 as stated: with clipboard selection negotiated,
a `CLIPBOARD_GRAB` whose declared size is 1028 (exceeding 1024) is
accepted, because the guard is applied to the size remaining after the
4-byte selection record (1024), not to the declared size. -/
theorem agent_size_guard_claim_counterexample :
    (purespice_agentProcess
        { cbSelection := true, cbSupported := false, cbAgentGrabbed := false,
          cbClientGrabbed := false, cbType := .none, cbBuffer := Option.none,
          cbRemain := 0, cbSize := 0 }
        1048
        (encodeU32 VD_AGENT_PROTOCOL ++
          (encodeU32 VD_AGENT_CLIPBOARD_GRAB ++
            (List.replicate 8 0 ++
              (encodeU32 1028 ++ List.replicate 1028 0))))).status = .ok ∧
    ¬ (purespice_agentProcess
        { cbSelection := true, cbSupported := false, cbAgentGrabbed := false,
          cbClientGrabbed := false, cbType := .none, cbBuffer := Option.none,
          cbRemain := 0, cbSize := 0 }
        1048
        (encodeU32 VD_AGENT_PROTOCOL ++
          (encodeU32 VD_AGENT_CLIPBOARD_GRAB ++
            (List.replicate 8 0 ++
              (encodeU32 1028 ++ List.replicate 1028 0))))).status = .error := by
  have h1 : (purespice_agentProcess
      { cbSelection := true, cbSupported := false, cbAgentGrabbed := false,
        cbClientGrabbed := false, cbType := .none, cbBuffer := Option.none,
        cbRemain := 0, cbSize := 0 }
      1048
      (encodeU32 VD_AGENT_PROTOCOL ++
        (encodeU32 VD_AGENT_CLIPBOARD_GRAB ++
          (List.replicate 8 0 ++
            (encodeU32 1028 ++ List.replicate 1028 0))))).status = .ok := rfl
  refine ⟨h1, ?_⟩
  intro hc
  rw [h1] at hc
  cases hc

theorem agentProcess_cont_incomplete (st : AgentState) (c b : List Nat)
    (hbuf : st.cbBuffer = Option.some b) (hlt : c.length < st.cbRemain) :
    purespice_agentProcess st c.length c =
      { status := .ok,
        st := { st with
          cbBuffer := Option.some (b ++ c),
          cbRemain := st.cbRemain - c.length,
          cbSize := st.cbSize + c.length },
        stream := [], events := [] } := by
  unfold purespice_agentProcess
  rw [if_pos (show st.cbRemain ≠ 0 from by omega)]
  simp only [show min st.cbRemain c.length = c.length from by omega,
    List.take_length, List.drop_length, hbuf, Option.getD_some]
  rw [if_neg (show ¬(st.cbRemain - c.length = 0) from by omega)]

theorem agentProcess_cont_complete (st : AgentState) (c b : List Nat)
    (hbuf : st.cbBuffer = Option.some b) (hpos : 0 < st.cbRemain)
    (heq : c.length = st.cbRemain) :
    purespice_agentProcess st c.length c =
      { status := .ok,
        st := { st with cbBuffer := Option.none, cbRemain := 0, cbSize := 0 },
        stream := [],
        events := [.clipboardData st.cbType (b ++ c)] } := by
  unfold purespice_agentProcess
  rw [if_pos (show st.cbRemain ≠ 0 from by omega)]
  simp only [show min st.cbRemain c.length = c.length from by omega,
    List.take_length, List.drop_length, hbuf, Option.getD_some]
  rw [if_pos (show st.cbRemain - c.length = 0 from by omega)]
  simp [purespice_agentOnClipboard]

theorem agentClipboardRecv_first (st : AgentState) (plen : Nat) (d0 : List Nat)
    (hbuf : st.cbBuffer = Option.none) (hd0 : d0.length ≤ plen) :
    agentClipboardRecv st plen d0.length d0 =
      if plen = d0.length then
        { status := .ok,
          st := { st with cbBuffer := Option.none, cbRemain := 0, cbSize := 0 },
          stream := [], events := [.clipboardData st.cbType d0] }
      else
        { status := .ok,
          st := { st with
            cbBuffer := Option.some d0,
            cbRemain := plen - d0.length,
            cbSize := d0.length },
          stream := [], events := [] } := by
  unfold agentClipboardRecv
  rw [hbuf]
  rw [if_neg (show ¬((Option.none : Option (List Nat)).isSome = true) from by simp)]
  simp only [show min plen d0.length = d0.length from by omega,
    List.take_length, List.drop_length]
  by_cases hc : plen = d0.length
  · rw [if_pos (show plen - d0.length = 0 from by omega), if_pos hc]
    simp [purespice_agentOnClipboard]
  · rw [if_neg (show ¬(plen - d0.length = 0) from by omega), if_neg hc]

/-- A well-formed first `MSG_MAIN_AGENT_DATA` chunk of a
`VD_AGENT_CLIPBOARD` transfer announcing `plen` payload bytes and
carrying the initial portion `d0`: `VDAgentMessage` header, optional
selection record, 4-byte type tag, then `d0`. -/
def clipboardChunkOne (sel : Bool) (ty plen : Nat) (d0 : List Nat) : List Nat :=
  encodeU32 VD_AGENT_PROTOCOL ++ (encodeU32 VD_AGENT_CLIPBOARD ++
    (List.replicate 8 0 ++
      (encodeU32 ((if sel then 4 else 0) + (4 + plen)) ++
        ((if sel then List.replicate 4 0 else []) ++ (encodeU32 ty ++ d0)))))

theorem clipboardChunkOne_length (sel : Bool) (ty plen : Nat) (d0 : List Nat) :
    (clipboardChunkOne sel ty plen d0).length =
      20 + ((if sel then 4 else 0) + (4 + d0.length)) := by
  unfold clipboardChunkOne
  cases sel <;>
    simp [encodeU32, List.length_append, List.length_replicate] <;> omega

theorem agentProcess_clipFirst (st : AgentState) (ty plen : Nat) (d0 : List Nat)
    (hbuf : st.cbBuffer = Option.none) (hrem : st.cbRemain = 0)
    (hd0 : d0.length ≤ plen) (hfit : plen + 32 < U32MOD) :
    purespice_agentProcess st
        (clipboardChunkOne st.cbSelection ty plen d0).length
        (clipboardChunkOne st.cbSelection ty plen d0) =
      if plen = d0.length then
        { status := .ok,
          st := { st with cbBuffer := Option.none, cbRemain := 0, cbSize := 0 },
          stream := [], events := [.clipboardData st.cbType d0] }
      else
        { status := .ok,
          st := { st with
            cbBuffer := Option.some d0,
            cbRemain := plen - d0.length,
            cbSize := d0.length },
          stream := [], events := [] } := by
  have hdfit : d0.length + 32 < U32MOD := by omega
  rw [clipboardChunkOne_length]
  unfold clipboardChunkOne
  rw [agentProcess_header st _ VD_AGENT_PROTOCOL VD_AGENT_CLIPBOARD
      ((if st.cbSelection then 4 else 0) + (4 + plen)) (List.replicate 8 0)
      ((if st.cbSelection then List.replicate 4 0 else []) ++
        (encodeU32 ty ++ d0))
      (by simp) hrem]
  rw [show VD_AGENT_PROTOCOL % U32MOD = VD_AGENT_PROTOCOL from by decide]
  rw [show VD_AGENT_CLIPBOARD % U32MOD = VD_AGENT_CLIPBOARD from by decide]
  have hm : ((if st.cbSelection then 4 else 0) + (4 + plen)) % U32MOD =
      (if st.cbSelection then 4 else 0) + (4 + plen) := by
    apply Nat.mod_eq_of_lt
    cases st.cbSelection <;> simp <;> omega
  rw [hm]
  rw [agentDispatch_clipboard, agentClipboardFamily_clipboard]
  cases hsel : st.cbSelection with
  | false =>
    simp only [Bool.false_eq_true, if_false, Nat.zero_add, List.nil_append]
    have ea : u32sub (4 + plen) 4 = plen := by
      rw [u32sub_of_le (by omega) (by omega)]
      omega
    have eb : u32sub (20 + (4 + d0.length)) 20 = 4 + d0.length := by
      rw [u32sub_of_le (by omega) (by omega)]
      omega
    have ec : u32sub (4 + d0.length) 4 = d0.length := by
      rw [u32sub_of_le (by omega) (by omega)]
      omega
    have ed : (encodeU32 ty ++ d0).drop 4 = d0 := List.drop_left' (encodeU32_length ty)
    rw [ea, eb, ec, ed]
    have hfin := agentClipboardRecv_first st plen d0 hbuf hd0
    rw [hsel] at hfin
    exact hfin
  | true =>
    simp only [Bool.true_eq_false, if_true, List.nil_append]
    have ea : u32sub (4 + (4 + plen)) 4 = 4 + plen := by
      rw [u32sub_of_le (by omega) (by omega)]
      omega
    have ea2 : u32sub (4 + plen) 4 = plen := by
      rw [u32sub_of_le (by omega) (by omega)]
      omega
    have eb : u32sub (20 + (4 + (4 + d0.length))) 20 = 4 + (4 + d0.length) := by
      rw [u32sub_of_le (by omega) (by omega)]
      omega
    have eb2 : u32sub (4 + (4 + d0.length)) 4 = 4 + d0.length := by
      rw [u32sub_of_le (by omega) (by omega)]
      omega
    have eb3 : u32sub (4 + d0.length) 4 = d0.length := by
      rw [u32sub_of_le (by omega) (by omega)]
      omega
    have ed : (List.replicate 4 0 ++ (encodeU32 ty ++ d0) : List Nat).drop 4 =
        encodeU32 ty ++ d0 := List.drop_left' (by simp)
    have ed2 : (encodeU32 ty ++ d0).drop 4 = d0 := List.drop_left' (encodeU32_length ty)
    rw [ea, ea2, eb, eb2, eb3, ed, ed2]
    have hfin := agentClipboardRecv_first st plen d0 hbuf hd0
    rw [hsel] at hfin
    exact hfin

theorem runAgentChunks_cont_complete (p : List Nat) :
    ∀ (ds : List (List Nat)) (st : AgentState) (acc : List Nat),
      st.cbBuffer = Option.some acc → st.cbRemain = p.length - acc.length →
      acc.length < p.length → p = acc ++ ds.flatten → (∀ c ∈ ds, c ≠ []) →
      runAgentChunks st ds =
        (.ok, { st with cbBuffer := Option.none, cbRemain := 0, cbSize := 0 },
         [.clipboardData st.cbType p]) := by
  intro ds
  induction ds with
  | nil =>
    intro st acc hbuf hrem hlt hsplit hne
    exfalso
    rw [List.flatten_nil, List.append_nil] at hsplit
    subst hsplit
    omega
  | cons c cs ih =>
    intro st acc hbuf hrem hlt hsplit hne
    have hcne : c ≠ [] := hne c (by simp)
    have hclen : 0 < c.length := List.length_pos.mpr hcne
    have hplen : p.length = acc.length + (c.length + cs.flatten.length) := by
      rw [hsplit]
      simp [List.flatten_cons]
    conv_lhs => rw [runAgentChunks]
    by_cases hdone : cs.flatten.length = 0
    · have hcs : cs = [] := by
        cases cs with
        | nil => rfl
        | cons c2 cs2 =>
          exfalso
          have h2 : c2 ≠ [] := hne c2 (by simp)
          have h3 : 0 < c2.length := List.length_pos.mpr h2
          rw [List.flatten_cons, List.length_append] at hdone
          omega
      subst hcs
      rw [agentProcess_cont_complete st c acc hbuf (by omega) (by omega)]
      have hpe : acc ++ c = p := by
        rw [hsplit, List.flatten_cons, List.flatten_nil, List.append_nil]
      simp only [runAgentChunks]
      rw [hpe]
      simp
    · rw [agentProcess_cont_incomplete st c acc hbuf (by omega)]
      have hih := ih
        { st with
          cbBuffer := Option.some (acc ++ c),
          cbRemain := st.cbRemain - c.length,
          cbSize := st.cbSize + c.length }
        (acc ++ c) rfl
        (by simp only [List.length_append]; omega)
        (by simp only [List.length_append]; omega)
        (by rw [hsplit, List.flatten_cons, List.append_assoc])
        (fun x hx => hne x (by simp [hx]))
      simp only [] at hih ⊢
      rw [hih]
      simp

theorem runAgentChunks_noEvents :
    ∀ (ds : List (List Nat)) (st : AgentState) (b : List Nat),
      st.cbBuffer = Option.some b → ds.flatten.length < st.cbRemain →
      (runAgentChunks st ds).2.2 = [] := by
  intro ds
  induction ds with
  | nil =>
    intro st b _ _
    rfl
  | cons c cs ih =>
    intro st b hbuf hlen
    rw [List.flatten_cons, List.length_append] at hlen
    conv_lhs => rw [runAgentChunks]
    rw [agentProcess_cont_incomplete st c b hbuf (by omega)]
    have hih := ih
      { st with
        cbBuffer := Option.some (b ++ c),
        cbRemain := st.cbRemain - c.length,
        cbSize := st.cbSize + c.length }
      (b ++ c) rfl (by simp only []; omega)
    simp only [] at hih ⊢
    rw [hih]
    rfl

theorem flatten_take_length_lt (ds : List (List Nat)) (k : Nat)
    (hk : k < ds.length) (hne : ∀ c ∈ ds, c ≠ []) :
    (ds.take k).flatten.length < ds.flatten.length := by
  conv_rhs => rw [← List.take_append_drop k ds]
  rw [List.flatten_append _ _, List.length_append]
  have hdrop : ds.drop k ≠ [] := by
    intro hnil
    have := congrArg List.length hnil
    simp only [List.length_drop, List.length_nil] at this
    omega
  cases hd : ds.drop k with
  | nil => exact absurd hd hdrop
  | cons c2 cs2 =>
    have hmem : c2 ∈ ds := by
      have : c2 ∈ ds.drop k := by rw [hd]; simp
      exact List.mem_of_mem_drop this
    have h2 : 0 < c2.length := List.length_pos.mpr (hne c2 hmem)
    rw [List.flatten_cons, List.length_append]
    omega

/-- C3: a `VD_AGENT_CLIPBOARD` payload `p`, announced in full in the first
chunk and split across that chunk (carrying `d0`) and any number of
further non-empty `MSG_MAIN_AGENT_DATA` chunks, is delivered to the data
callback exactly once — on the chunk with which the received byte count
reaches the announced size (no event fires on any proper prefix of the
chunk list) — as the concatenation of the chunk payloads after the 4-byte
type prefix; afterwards the buffer is freed and `cbRemain` and `cbSize`
are reset to `0`. -/
theorem clipboard_reassembly (st0 : AgentState) (ty : Nat) (p d0 : List Nat)
    (ds : List (List Nat))
    (hbuf : st0.cbBuffer = Option.none) (hrem : st0.cbRemain = 0)
    (hsplit : p = d0 ++ ds.flatten) (hne : ∀ c ∈ ds, c ≠ [])
    (hfit : p.length + 32 < U32MOD) :
    runAgentChunks st0 (clipboardChunkOne st0.cbSelection ty p.length d0 :: ds) =
      (.ok, { st0 with cbBuffer := Option.none, cbRemain := 0, cbSize := 0 },
       [.clipboardData st0.cbType p]) ∧
    (∀ k, k < ds.length →
      (runAgentChunks st0
        (clipboardChunkOne st0.cbSelection ty p.length d0 :: ds.take k)).2.2 = []) := by
  have hd0 : d0.length ≤ p.length := by
    rw [hsplit]
    simp
  constructor
  · conv_lhs => rw [runAgentChunks]
    rw [agentProcess_clipFirst st0 ty p.length d0 hbuf hrem hd0 hfit]
    by_cases hc : p.length = d0.length
    · have hfl : ds.flatten.length = 0 := by
        have hlen := congrArg List.length hsplit
        rw [List.length_append] at hlen
        omega
      have hds : ds = [] := by
        cases ds with
        | nil => rfl
        | cons c2 cs2 =>
          exfalso
          have h2 : 0 < c2.length := List.length_pos.mpr (hne c2 (by simp))
          rw [List.flatten_cons, List.length_append] at hfl
          omega
      subst hds
      have hdp : d0 = p := by
        rw [hsplit, List.flatten_nil, List.append_nil]
      rw [if_pos hc]
      simp only [runAgentChunks]
      rw [hdp]
      simp
    · rw [if_neg hc]
      have hcc := runAgentChunks_cont_complete p ds
        { st0 with
          cbBuffer := Option.some d0,
          cbRemain := p.length - d0.length,
          cbSize := d0.length }
        d0 rfl rfl (by omega) hsplit hne
      simp only [] at hcc ⊢
      rw [hcc]
      simp
  · intro k hk
    have hfl : 0 < ds.flatten.length := by
      cases ds with
      | nil => simp at hk
      | cons c2 cs2 =>
        have h2 : 0 < c2.length := List.length_pos.mpr (hne c2 (by simp))
        rw [List.flatten_cons, List.length_append]
        omega
    have hlt : d0.length < p.length := by
      have hlen := congrArg List.length hsplit
      rw [List.length_append] at hlen
      omega
    conv_lhs => rw [runAgentChunks]
    rw [agentProcess_clipFirst st0 ty p.length d0 hbuf hrem hd0 hfit]
    rw [if_neg (by omega)]
    have hno := runAgentChunks_noEvents (ds.take k)
      { st0 with
        cbBuffer := Option.some d0,
        cbRemain := p.length - d0.length,
        cbSize := d0.length }
      d0 rfl
      (by
        have h1 := flatten_take_length_lt ds k hk hne
        have hlen := congrArg List.length hsplit
        rw [List.length_append] at hlen
        simp only []
        omega)
    simp only [] at hno ⊢
    rw [hno]
    rfl

/-- Witness for C3: the payload `[10, 20, 30]` split as `[10]` in the
first chunk and continuation chunks `[20]`, `[30]` is delivered exactly
once, concatenated, on the final chunk. -/
theorem clipboard_reassembly_witness :
    ({ cbSelection := false, cbSupported := false, cbAgentGrabbed := false,
       cbClientGrabbed := false, cbType := .none, cbBuffer := Option.none,
       cbRemain := 0, cbSize := 0 } : AgentState).cbBuffer = Option.none ∧
    ([10, 20, 30] : List Nat) = [10] ++ ([[20], [30]] : List (List Nat)).flatten ∧
    (runAgentChunks
        { cbSelection := false, cbSupported := false, cbAgentGrabbed := false,
          cbClientGrabbed := false, cbType := .none, cbBuffer := Option.none,
          cbRemain := 0, cbSize := 0 }
        (clipboardChunkOne
            ({ cbSelection := false, cbSupported := false, cbAgentGrabbed := false,
               cbClientGrabbed := false, cbType := .none, cbBuffer := Option.none,
               cbRemain := 0, cbSize := 0 } : AgentState).cbSelection
            1 ([10, 20, 30] : List Nat).length [10] :: [[20], [30]]) =
       (.ok,
        { ({ cbSelection := false, cbSupported := false, cbAgentGrabbed := false,
             cbClientGrabbed := false, cbType := .none, cbBuffer := Option.none,
             cbRemain := 0, cbSize := 0 } : AgentState) with
          cbBuffer := Option.none, cbRemain := 0, cbSize := 0 },
        [.clipboardData
            ({ cbSelection := false, cbSupported := false, cbAgentGrabbed := false,
               cbClientGrabbed := false, cbType := .none, cbBuffer := Option.none,
               cbRemain := 0, cbSize := 0 } : AgentState).cbType [10, 20, 30]]) ∧
     (∀ k, k < ([[20], [30]] : List (List Nat)).length →
       (runAgentChunks
          { cbSelection := false, cbSupported := false, cbAgentGrabbed := false,
            cbClientGrabbed := false, cbType := .none, cbBuffer := Option.none,
            cbRemain := 0, cbSize := 0 }
          (clipboardChunkOne
              ({ cbSelection := false, cbSupported := false, cbAgentGrabbed := false,
                 cbClientGrabbed := false, cbType := .none, cbBuffer := Option.none,
                 cbRemain := 0, cbSize := 0 } : AgentState).cbSelection
              1 ([10, 20, 30] : List Nat).length [10] ::
            ([[20], [30]] : List (List Nat)).take k)).2.2 = [])) :=
  ⟨rfl, rfl,
   clipboard_reassembly
     { cbSelection := false, cbSupported := false, cbAgentGrabbed := false,
       cbClientGrabbed := false, cbType := .none, cbBuffer := Option.none,
       cbRemain := 0, cbSize := 0 }
     1 [10, 20, 30] [10] [[20], [30]] rfl rfl rfl (by decide) (by decide)⟩
